import Mathlib

/-!
Shallow embedding of the CoAP Resource Directory implementation in
`aiocoap/cli/rd.py` (registration registry, lookup/filter/pagination engine),
together with the fragments of Python/stdlib semantics the code relies on
(`int()` parsing, list slicing, `dict` operations, `urllib.parse.urljoin`).

Python exceptions are modelled with `Except`: distinct exception classes are
distinct `Err` constructors, because the code catches some classes and not
others.  Functions that mutate a `Registration` or the registry thread the
state explicitly; an escaping exception carries the state as mutated so far,
so that "validation precedes mutation" is a provable statement and not an
artifact of the embedding.
-/

namespace RD

/-- Python exception classes that the modelled code can raise or catch. -/
inductive Err
  | badRequest      -- aiocoap.error.BadRequest
  | valueError      -- ValueError (caught in `_paginate`, re-raised as BadRequest)
  | typeError       -- TypeError (e.g. int(None)); never caught in this code
  | keyError        -- KeyError (e.g. `del d[k]` with k absent)
  | indexError      -- IndexError (e.g. `[][0]`)
  | attributeError  -- AttributeError (e.g. None.split())
  | unboundLocal    -- UnboundLocalError (reading never-assigned local)
  | cbError         -- an exception escaping a change-notification subscriber
deriving DecidableEq, Repr

/-- A query value: `none` models Python `None` (query key without `=value`). -/
abbrev QVal := Option String

/-- Output of `query_split`: an insertion-ordered dict from key to the list of
values supplied for that key (duplicates preserved, in arrival order). -/
abbrev Query := List (String × List QVal)

/-- Core digit parsing of CPython `int(str)`: `digit (('_')? digit)*`
(single underscores allowed between digits only). -/
def pyDigitsGo (acc : Nat) : List Char → Option Nat
  | [] => some acc
  | '_' :: c :: rest =>
      if c.isDigit then pyDigitsGo (acc * 10 + (c.toNat - 48)) rest else none
  | c :: rest =>
      if c.isDigit then pyDigitsGo (acc * 10 + (c.toNat - 48)) rest else none

def pyDigits : List Char → Option Nat
  | [] => none
  | c :: rest => if c.isDigit then pyDigitsGo (c.toNat - 48) rest else none

/-- CPython `int(s)`: optional surrounding whitespace, optional sign, digits
with single embedded underscores.  `none` models a `ValueError`. -/
def pyIntParse (s : String) : Option Int :=
  let cs := ((s.toList.dropWhile Char.isWhitespace).reverse.dropWhile
      Char.isWhitespace).reverse
  match cs with
  | '+' :: rest => (pyDigits rest).map Int.ofNat
  | '-' :: rest => (pyDigits rest).map (fun n => -(n : Int))
  | rest => (pyDigits rest).map Int.ofNat

/-- `int(x)` where `x` is a `str`-or-`None` value: `int(None)` is a
`TypeError`, an unparsable string a `ValueError`. -/
def pyIntV : Option String → Except Err Int
  | none => .error .typeError
  | some s =>
    match pyIntParse s with
    | some n => .ok n
    | none => .error .valueError

/-- Python `l[n:]` (start index may be negative). -/
def pySliceFrom (l : List α) (n : Int) : List α :=
  if 0 ≤ n then l.drop n.toNat else l.drop (((l.length : Int) + n).toNat)

/-- Python `l[:n]` (stop index may be negative). -/
def pySliceTo (l : List α) (n : Int) : List α :=
  if 0 ≤ n then l.take n.toNat else l.take (((l.length : Int) + n).toNat)

/-- Accumulating splitter for `str.split()` (kernel-reducible). -/
def wsTokensGo (cur : List Char) : List Char → List (List Char)
  | [] => if cur.isEmpty then [] else [cur.reverse]
  | c :: rest =>
    if c.isWhitespace then
      if cur.isEmpty then wsTokensGo [] rest
      else cur.reverse :: wsTokensGo [] rest
    else wsTokensGo (c :: cur) rest

/-- Python `s.split()`: split on whitespace runs, discarding empty pieces. -/
def pySplitWs (s : String) : List String :=
  (wsTokensGo [] s.toList).map String.mk

/-- Python `s.startswith(t)` — `t` a prefix of `s` (kernel-reducible). -/
def chPre : List Char → List Char → Bool
  | [], _ => true
  | _ :: _, [] => false
  | a :: as, b :: bs => a == b && chPre as bs

def pyStartswith (start s : String) : Bool := chPre start.toList s.toList

/-- Python `s.split('/')` (separator split, keeping empty pieces). -/
def splitSlash : List Char → List (List Char)
  | [] => [[]]
  | c :: rest =>
    if c = '/' then [] :: splitSlash rest
    else
      match splitSlash rest with
      | [] => [[c]]
      | t :: ts => (c :: t) :: ts

def pySplitSlash (s : String) : List String :=
  (splitSlash s.toList).map String.mk

/-- `pop_single_arg(query, name)` from rd.py: `none` result when the key is
absent; BadRequest on more than one value; otherwise the single value is
removed from the query.  (`query.pop(name)[0]` on an empty value list would
be an IndexError; `query_split` never produces empty lists.) -/
def pop_single_arg (q : Query) (name : String) : Except Err (Option QVal × Query) :=
  match q.lookup name with
  | none => .ok (none, q)
  | some vs =>
    if vs.length > 1 then .error .badRequest
    else
      match vs with
      | [] => .error .indexError
      | v :: _ => .ok (some v, q.filter (fun p => !(p.1 == name)))

/-! ### `urllib.parse.urljoin` (CPython 3.11)

`rd.py` resolves link hrefs and anchors with the standard library's
`urljoin`.  The embedding below follows `urllib/parse.py`: `urlsplit`'s
stripping and scheme/netloc/fragment/query splitting, `urlparse`'s
params split, `urlunsplit`/`urlunparse`, and `urljoin`'s early return for
schemes outside `uses_relative` plus its RFC-3986 segment resolution.
(The netloc validity checks that can raise on malformed IPv6 hosts are
omitted; no theorem below exercises a malformed netloc.) -/

/-- Parsed URL components as produced by `urlparse`. -/
structure UrlParts where
  scheme : String
  netloc : String
  path : String
  params : String
  query : String
  frag : String
deriving DecidableEq, Repr

def usesRelative : List String :=
  ["", "ftp", "http", "gopher", "nntp", "imap", "wais", "file", "https",
   "shttp", "mms", "prospero", "rtsp", "rtsps", "rtspu", "sftp", "svn",
   "svn+ssh", "ws", "wss"]

def usesNetloc : List String :=
  ["", "ftp", "http", "gopher", "nntp", "telnet", "imap", "wais", "file",
   "mms", "https", "shttp", "snews", "prospero", "rtsp", "rtsps", "rtspu",
   "rsync", "svn", "svn+ssh", "sftp", "nfs", "git", "git+ssh", "ws", "wss"]

def usesParams : List String :=
  ["", "ftp", "hdl", "prospero", "http", "imap", "https", "shttp", "rtsp",
   "rtspu", "sip", "sips", "mms", "sftp", "tel"]

/-- A character of `scheme_chars`. -/
def isSchemeChar (c : Char) : Bool :=
  c.isAlpha || c.isDigit || c == '+' || c == '-' || c == '.'

/-- First index of `c` in `cs` at position `≥ start` (Python `s.find(c, start)`). -/
def findCharFrom (cs : List Char) (c : Char) (start : Nat) : Option Nat :=
  ((cs.drop start).findIdx? (· == c)).map (· + start)

/-- Last index of `c` in `cs`, Python `s.rfind(c)` (`none` for -1). -/
def rfindChar (cs : List Char) (c : Char) : Option Nat :=
  (cs.reverse.findIdx? (· == c)).map (fun i => cs.length - 1 - i)

/-- `_splitnetloc(url, 2)`: netloc runs to the first of `/?#` after position 2. -/
def splitNetloc (cs : List Char) : List Char × List Char :=
  let delim := [(findCharFrom cs '/' 2), (findCharFrom cs '?' 2),
      (findCharFrom cs '#' 2)].foldl
    (fun acc o => match o with | some i => min acc i | none => acc) cs.length
  ((cs.drop 2).take (delim - 2), cs.drop delim)

/-- Python `s.split(sep, 1)` at the first occurrence of character `sep`. -/
def splitOnce (cs : List Char) (sep : Char) : List Char × Option (List Char) :=
  match cs.findIdx? (· == sep) with
  | some i => (cs.take i, some (cs.drop (i + 1)))
  | none => (cs, none)

/-- `urlsplit(url, scheme)` with `allow_fragments=True`. -/
def pyUrlsplit (url defScheme : String) : UrlParts :=
  let cs0 := (url.toList.dropWhile (fun c => c.toNat ≤ 32)).filter
      (fun c => !(c == '\t' || c == '\r' || c == '\n'))
  let sch0 := (((defScheme.toList.dropWhile (fun c => c.toNat ≤ 32)).reverse.dropWhile
      (fun c => c.toNat ≤ 32)).reverse).filter
      (fun c => !(c == '\t' || c == '\r' || c == '\n'))
  let (scheme, rest) :=
    match cs0.findIdx? (· == ':') with
    | some i =>
      if 0 < i ∧ (cs0.take 1).all Char.isAlpha ∧ (cs0.take i).all isSchemeChar then
        ((cs0.take i).map Char.toLower, cs0.drop (i + 1))
      else (sch0, cs0)
    | none => (sch0, cs0)
  let (netloc, rest) :=
    if rest.take 2 = ['/', '/'] then splitNetloc rest else ([], rest)
  let (rest, frag) :=
    match splitOnce rest '#' with
    | (before, some f) => (before, f)
    | (before, none) => (before, [])
  let (rest, query) :=
    match splitOnce rest '?' with
    | (before, some q) => (before, q)
    | (before, none) => (before, [])
  ⟨String.mk scheme, String.mk netloc, String.mk rest, "", String.mk query,
    String.mk frag⟩

/-- `_splitparams(url)`. -/
def splitParamsStr (cs : List Char) : List Char × List Char :=
  let i : Option Nat :=
    if cs.contains '/' then
      match rfindChar cs '/' with
      | some r => findCharFrom cs ';' r
      | none => none
    else cs.findIdx? (· == ';')
  match i with
  | some i => (cs.take i, cs.drop (i + 1))
  | none => (cs, [])

/-- `urlparse(url, scheme)`: `urlsplit` plus the params split for schemes in
`uses_params`. -/
def pyUrlparse (url defScheme : String) : UrlParts :=
  let r := pyUrlsplit url defScheme
  if r.scheme ∈ usesParams ∧ r.path.toList.contains ';' then
    let (p, par) := splitParamsStr r.path.toList
    { r with path := String.mk p, params := String.mk par }
  else r

/-- `urlunsplit((scheme, netloc, url, query, fragment))`. -/
def pyUrlunsplit (scheme netloc url query frag : String) : String :=
  let url :=
    if netloc ≠ "" ∨ (scheme ≠ "" ∧ scheme ∈ usesNetloc ∧ url.toList.take 2 ≠ ['/', '/']) then
      let url := if url ≠ "" ∧ url.toList.take 1 ≠ ['/'] then "/" ++ url else url
      "//" ++ netloc ++ url
    else url
  let url := if scheme ≠ "" then scheme ++ ":" ++ url else url
  let url := if query ≠ "" then url ++ "?" ++ query else url
  if frag ≠ "" then url ++ "#" ++ frag else url

/-- `urlunparse`. -/
def pyUrlunparse (u : UrlParts) : String :=
  let url := if u.params ≠ "" then u.path ++ ";" ++ u.params else u.path
  pyUrlunsplit u.scheme u.netloc url u.query u.frag

/-- `segments[1:-1] = filter(None, segments[1:-1])`. -/
def filterMiddle (segs : List String) : List String :=
  match segs with
  | [] => []
  | [s] => [s]
  | s :: rest => s :: ((rest.dropLast.filter (fun t => t ≠ "")) ++ [rest.getLast!])

/-- The `'..'` / `'.'` resolution loop of `urljoin`. -/
def resolveSegs (segs : List String) : List String :=
  segs.foldl
    (fun acc seg =>
      if seg = ".." then acc.dropLast
      else if seg = "." then acc
      else acc ++ [seg])
    []

/-- `urllib.parse.urljoin(base, url)`. -/
def pyUrljoin (base url : String) : String :=
  if base = "" then url
  else if url = "" then base
  else
    let b := pyUrlparse base ""
    let u := pyUrlparse url b.scheme
    if u.scheme ≠ b.scheme ∨ u.scheme ∉ usesRelative then url
    else if u.scheme ∈ usesNetloc ∧ u.netloc ≠ "" then pyUrlunparse u
    else
      let netloc := if u.scheme ∈ usesNetloc then b.netloc else u.netloc
      if u.path = "" ∧ u.params = "" then
        pyUrlunparse ⟨u.scheme, netloc, b.path, b.params,
          (if u.query = "" then b.query else u.query), u.frag⟩
      else
        let baseParts := pySplitSlash b.path
        let baseParts :=
          if baseParts.getLast? ≠ some "" then baseParts.dropLast else baseParts
        let segments :=
          if u.path.toList.take 1 = ['/'] then pySplitSlash u.path
          else filterMiddle (baseParts ++ pySplitSlash u.path)
        let resolved := resolveSegs segments
        let resolved :=
          if segments.getLast? = some "." ∨ segments.getLast? = some ".." then
            resolved ++ [""]
          else resolved
        let p := "/".intercalate resolved
        pyUrlunparse ⟨u.scheme, netloc, (if p = "" then "/" else p),
          u.params, u.query, u.frag⟩

/-- The body of the `try:` block of `_paginate`, after `list(candidates)`
succeeded: `candidates[int(page)*int(count):]` then `candidates[:int(count)]`. -/
def paginateBody (cands : List α) (page count : Option String) : Except Err (List α) := do
  let c1 ← if page.isSome then do
      let pi ← pyIntV page
      let ci ← pyIntV count
      pure (pySliceFrom cands (pi * ci))
    else pure cands
  if count.isSome then do
    let ci ← pyIntV count
    pure (pySliceTo c1 ci)
  else pure c1

/-- `except (KeyError, ValueError): raise BadRequest(...)` — other exception
classes (notably TypeError from `int(None)`) propagate unhandled. -/
def catchKVErr : Except Err α → Except Err α
  | .error .keyError => .error .badRequest
  | .error .valueError => .error .badRequest
  | e => e

/-- `_paginate(candidates, query)` from rd.py.  `cands` is the (lazily
filtered) candidate iterable: forcing it with `list(...)` happens inside the
`try:` block, after `page`/`count` were popped, so a filtering exception
surfaces here.  -/
def paginate (cands : Except Err (List α)) (q : Query) : Except Err (List α) := do
  let (page, q1) ← pop_single_arg q "page"
  let (count, _) ← pop_single_arg q1 "count"
  catchKVErr (do
    let l ← cands
    paginateBody l (page.bind id) (count.bind id))

/-! ### Links and Registrations -/

/-- Modelled from the spec: a `Link` (from `aiocoap.util.linkformat` /
`link_header`, whose code is not under src/) is "an href with an ordered
multimap of attributes and an optional anchor", plus the optional `base` the
host link carries; constructor keyword attributes such as `rt=...` append a
pair to the attribute pair list. -/
structure Link where
  href : String
  attr_pairs : List (String × QVal)
  base : Option String := none
deriving DecidableEq, Repr

/-- Modelled from the spec: the link's "optional anchor" — the value of its
`anchor` attribute pair, when one is present. -/
def Link.anchorVal (l : Link) : Option QVal :=
  (l.attr_pairs.find? (fun p => p.1 == "anchor")).map (·.2)

/-- `CommonRD.Registration` state.  `rid` models Python object identity
(allocation number); `dkey`/`dpath` are the key and path tail captured by the
injected `delete` closure of `initialize_endpoint`; `timeout` is the delay the
expiry timer is armed with. -/
structure Reg where
  rid : Nat
  path : List String
  links : List Link
  registration_parameters : List (String × List QVal)
  lt : Int
  base : String
  base_is_explicit : Bool
  timeout : Int
  dkey : String × Option String
  dpath : List String
deriving DecidableEq, Repr

/-- `Registration.href`: `'/' + '/'.join(self.path)`. -/
def Reg.href (r : Reg) : String := "/" ++ "/".intercalate r.path

/-- `Registration.get_host_link()`: one attribute pair per value per key of
`registration_parameters`, plus the `rt` keyword attribute (note the source
writes the string `"coire.rd-ep"`), with the registration's base. -/
def get_host_link (r : Reg) : Link :=
  { href := r.href,
    attr_pairs :=
      (r.registration_parameters.foldl
        (fun acc p => acc ++ p.2.map (fun v => (p.1, v))) [])
      ++ [("rt", some "coire.rd-ep")],
    base := some r.base }

/-- `Registration.get_based_links()`: hrefs (and any explicit anchor) are
passed through `urljoin` against the registration's base; a link without an
anchor attribute gets `anchor = base` appended.  (Codec-produced links always
carry string attribute values, so an anchor value is never `None`; `getD ""`
is the total rendering of that access.) -/
def get_based_links (r : Reg) : List Link :=
  r.links.map (fun l =>
    match l.anchorVal with
    | some v =>
      { href := pyUrljoin r.base l.href,
        attr_pairs := (l.attr_pairs.filter (fun p => p.1 ≠ "anchor"))
          ++ [("anchor", some (pyUrljoin r.base (v.getD "")))],
        base := none }
    | none =>
      { href := pyUrljoin r.base l.href,
        attr_pairs := l.attr_pairs ++ [("anchor", some r.base)],
        base := none })

/-! ### `Registration.update_params`

The source validates first and mutates afterwards; the embedding makes each
mutation step explicit and lets an escaping exception carry the
`Registration` state as mutated so far, so that atomicity is a provable
property rather than a side effect of using `Except`. -/

/-- Python `d[k] = v` on an insertion-ordered dict. -/
def pyDictSet [BEq κ] (d : List (κ × α)) (k : κ) (v : α) : List (κ × α) :=
  if d.any (·.1 == k) then d.map (fun q => if q.1 == k then (k, v) else q)
  else d ++ [(k, v)]

/-- Python `d.update(u)`. -/
def dictUpdate [BEq κ] (d u : List (κ × α)) : List (κ × α) :=
  u.foldl (fun acc p => pyDictSet acc p.1 p.2) d

/-- `if set_lt is not None and self.lt != set_lt: actual_change = True;
self.lt = set_lt`. -/
def ltStage (st : Reg × Bool) (setLt : Option Int) : Reg × Bool :=
  match setLt with
  | some n => if st.1.lt = n then st else ({ st.1 with lt := n }, true)
  | none => st

/-- `if set_base is not None and (is_initial or self.base != set_base): ...`. -/
def baseStage (isInitial : Bool) (st : Reg × Bool) (setBase : Option String) :
    Reg × Bool :=
  match setBase with
  | some b =>
    if isInitial ∨ st.1.base ≠ b then
      ({ st.1 with base := b, base_is_explicit := true }, true)
    else st
  | none => st

/-- `if not self.base_is_explicit and (is_initial or self.base !=
network_base): ...` — `network_base` is only assigned when the earlier
validity check ran; evaluating it otherwise is an `UnboundLocalError`. -/
def netBaseStage (isInitial : Bool) (st : Reg × Bool)
    (networkBase : Option String) : Except Reg (Reg × Bool) :=
  if st.1.base_is_explicit then .ok st
  else if isInitial then
    match networkBase with
    | some nb => .ok ({ st.1 with base := nb }, true)
    | none => .error st.1
  else
    match networkBase with
    | none => .error st.1
    | some nb =>
      if st.1.base ≠ nb then .ok ({ st.1 with base := nb }, true) else .ok st

/-- `if any(v != self.registration_parameters.get(k) for (k, v) in
registration_parameters.items()): update; actual_change = True`. -/
def rpStage (st : Reg × Bool) (p2 : Query) : Reg × Bool :=
  if p2.any (fun p => !(st.1.registration_parameters.lookup p.1 == some p.2)) then
    ({ st.1 with
        registration_parameters := dictUpdate st.1.registration_parameters p2 },
      true)
  else st

/-- The early-validity condition: `(is_initial or not self.base_is_explicit)
and 'base' not in registration_parameters` — when true, `network_base` is
assigned from the origin's URI (or `BadRequest` on an anonymous origin). -/
def needNetBase (reg : Reg) (params : Query) (isInitial : Bool) : Bool :=
  (isInitial || !reg.base_is_explicit) && !(params.any (·.1 == "base"))

/-- `int(pop_single_arg(registration_parameters, 'lt'))` with Python's
exception classes: ValueError is caught and re-raised as BadRequest
("lt must be numeric"), `int(None)` is an uncaught TypeError. -/
def parseLt (ltv : Option QVal) : Except Err (Option Int) :=
  match ltv with
  | none => .ok none
  | some none => .error .typeError
  | some (some s) =>
    match pyIntParse s with
    | none => .error .badRequest
    | some n => .ok (some n)

/-- The mutation half of `update_params`, after all pops and checks: apply
the `lt`, explicit-`base`, derived-`base` and parameter-dict updates, then
re-arm the timer for `lt + grace_period` (15). -/
def updTail (reg : Reg) (isInitial : Bool) (networkBase : Option String)
    (setLt : Option Int) (setBase : Option String) (params2 : Query) :
    Except (Err × Reg) (Reg × Bool) :=
  match netBaseStage isInitial
      (baseStage isInitial (ltStage (reg, isInitial) setLt) setBase)
      networkBase with
  | .error r => .error (.unboundLocal, r)
  | .ok st3 =>
    match rpStage st3 params2 with
    | (r4, a4) => .ok ({ r4 with timeout := r4.lt + 15 }, a4)

/-- `Registration.update_params(network_remote, registration_parameters,
is_initial)`.  `origin` is the network remote: `none` models an origin whose
`.uri` raises `AnonymousHost`.  Returns the updated registration and the
`actual_change` flag (whether `self._update_cb()` fires); an error carries
the registration state at the moment the exception escapes. -/
def update_params (reg : Reg) (origin : Option String) (params : Query)
    (isInitial : Bool) : Except (Err × Reg) (Reg × Bool) :=
  if params.any (fun p => p.1 == "ep" || p.1 == "d") then
    .error (.badRequest, reg)
  else if params.any (fun p => p.1 == "page" || p.1 == "count" || p.1 == "rt"
      || p.1 == "href" || p.1 == "anchor") then
    .error (.badRequest, reg)
  else if needNetBase reg params isInitial ∧ origin.isNone then
    .error (.badRequest, reg)
  else
    match pop_single_arg params "lt" with
    | .error e => .error (e, reg)
    | .ok (ltv, params1) =>
      match parseLt ltv with
      | .error e => .error (e, reg)
      | .ok setLt =>
        match pop_single_arg params1 "base" with
        | .error e => .error (e, reg)
        | .ok (bv, params2) =>
          updTail reg isInitial
            (if needNetBase reg params isInitial then origin else none)
            setLt (bv.bind id) params2

/-! ### `CommonRD`: the registry store

State-level operations additionally produce an event trace recording timer
arming/cancellation, subscriber notification, and map mutation — the
observable effects the temporal claims speak about. -/

/-- Observable effects of registry operations. -/
inductive Event
  | timerCancelled (rid : Nat)
  | timerSet (rid : Nat) (delay : Int)
  | notified (cb : Nat)
  | removedMaps (rid : Nat)
  | installed (rid : Nat)
deriving DecidableEq, Repr

/-- A change-notification subscriber: an identifier and whether invoking it
raises. -/
abbrev CB := Nat × Bool

/-- `CommonRD` state: `_by_key`, `_by_path` (path tails), the subscriber
list, and the allocation counter modelling object identity. -/
structure RDState where
  byKey : List ((String × Option String) × Reg)
  byPath : List (List String × Reg)
  cbs : List CB
  nextId : Nat
deriving DecidableEq, Repr

/-- `CommonRD.register_change_callback`. -/
def register_change_callback (s : RDState) (cb : CB) : RDState :=
  { s with cbs := s.cbs ++ [cb] }

/-- `CommonRD._updated_state`: `for cb in self._updated_state_cb: cb()` —
returns which subscribers were invoked and the first escaping exception, if
any. -/
def updated_state : List CB → List Event × Option Err
  | [] => ([], none)
  | (i, fails) :: rest =>
    if fails then ([.notified i], some .cbError)
    else
      let (evs, e) := updated_state rest
      (.notified i :: evs, e)

/-- Python `del d[k]`. -/
def pyDelAssoc [BEq κ] (m : List (κ × α)) (k : κ) : Except Err (List (κ × α)) :=
  if m.any (·.1 == k) then .ok (m.filter (fun p => !(p.1 == k)))
  else .error .keyError

/-- The `delete` closure injected by `initialize_endpoint`:
`del self._by_path[path]; del self._by_key[key]` for the captured `key` and
`path` — with no check of which Registration currently occupies them. -/
def deleteCb (s : RDState) (key : String × Option String) (path : List String) :
    Except (Err × RDState) RDState :=
  match pyDelAssoc s.byPath path with
  | .error e => .error (e, s)
  | .ok bp =>
    match pyDelAssoc s.byKey key with
    | .error e => .error (e, { s with byPath := bp })
    | .ok bk => .ok { s with byPath := bp, byKey := bk }

/-- `Registration.delete()` run against the store: cancel the timer, fire the
change notification, then run the injected delete callback with the
registration's captured `key`/`path`. -/
def reg_delete (s : RDState) (rid : Nat) (key : String × Option String)
    (path : List String) : Except (Err × RDState) RDState × List Event :=
  let evs0 := [Event.timerCancelled rid]
  let (nevs, cbe) := updated_state s.cbs
  match cbe with
  | some e => (.error (e, s), evs0 ++ nevs)
  | none =>
    match deleteCb s key path with
    | .error es => (.error es, evs0 ++ nevs)
    | .ok s' => (.ok s', evs0 ++ nevs ++ [Event.removedMaps rid])

/-- `CommonRD.entity_prefix = ("reg",)`. -/
def entityPrefixSegs : List String := ["reg"]

/-- `CommonRD._new_pathtail`: smallest `i ≥ 1` whose two-segment tail
`(str(i), '')` is unused.  (`itertools.count` is unbounded; among the first
`length + 1` candidates one is always free, so the search is total.) -/
def new_pathtail (byPath : List (List String × Reg)) : List String :=
  match ((List.range (byPath.length + 1)).map (· + 1)).find?
      (fun i => !(byPath.any (·.1 == [toString i, ""]))) with
  | some i => [toString i, ""]
  | none => []

/-- The tail of `initialize_endpoint` after the key was formed and any old
registration deleted: construct the `Registration` (whose constructor runs
`update_params(..., is_initial=True)`, arms the timer and fires the change
notification) and install it in both maps. -/
def finishInit (s : RDState) (origin : Option String)
    (key : String × Option String) (path : List String)
    (epAndD params2 : Query) (evs : List Event) :
    Except Err Reg × RDState × List Event :=
  let reg0 : Reg :=
    { rid := s.nextId, path := entityPrefixSegs ++ path, links := [],
      registration_parameters := epAndD, lt := 90000, base := "",
      base_is_explicit := false, timeout := 0, dkey := key, dpath := path }
  match update_params reg0 origin params2 true with
  | .error (e, _) => (.error e, s, evs)
  | .ok (reg1, fired) =>
    let evs1 := evs ++ [Event.timerSet reg1.rid reg1.timeout]
    let inst : RDState → List Event → Except Err Reg × RDState × List Event :=
      fun s evs =>
        (.ok reg1,
          { s with byKey := pyDictSet s.byKey key reg1,
                   byPath := pyDictSet s.byPath path reg1,
                   nextId := s.nextId + 1 },
          evs ++ [Event.installed reg1.rid])
    if fired then
      match updated_state s.cbs with
      | (nevs, some e) => (.error e, s, evs1 ++ nevs)
      | (nevs, none) => inst s (evs1 ++ nevs)
    else inst s evs1

/-- `CommonRD.initialize_endpoint(network_remote, registration_parameters)`.
Returns the created Registration (or the escaping exception), the resulting
store state, and the event trace. -/
def initialize_endpoint (s : RDState) (origin : Option String)
    (params : Query) : Except Err Reg × RDState × List Event :=
  let epAndD := params.filter (fun p => p.1 == "ep" || p.1 == "d")
  match pop_single_arg params "ep" with
  | .error e => (.error e, s, [])
  | .ok (epv, params1) =>
    match epv.bind id with
    | none => (.error .badRequest, s, [])
    | some ep =>
      match pop_single_arg params1 "d" with
      | .error e => (.error e, s, [])
      | .ok (dv, params2) =>
        let key := (ep, dv.bind id)
        match s.byKey.lookup key with
        | none => finishInit s origin key (new_pathtail s.byPath) epAndD params2 []
        | some oldreg =>
          let path := oldreg.path.drop entityPrefixSegs.length
          match reg_delete s oldreg.rid oldreg.dkey oldreg.dpath with
          | (.error (e, s'), evs) => (.error e, s', evs)
          | (.ok s', evs) => finishInit s' origin key path epAndD params2 evs

/-- `CommonRD.get_endpoints`: `self._by_key.values()`. -/
def get_endpoints (s : RDState) : List Reg := s.byKey.map (·.2)

/-! ### The lookup engine

Both `render_get` bodies build a chain of generator expressions, one per
(key, value) pair of the query, and force the chain only inside `_paginate`
(`list(candidates)`), after both loops have finished.  The generator
conditions refer to the loop variables `matches` and `search_key` as free
variables, and `matches = lambda x: x == search_value` closes over
`search_value` — all late bound.  So when the chain is forced, every stage
evaluates with the final `matches` object (built from the last (key, value)
pair of the last non-pagination key, which also fixed the `*`-prefix /
equality choice and the `if`/`rt` token wrapping) and with `search_key`
being the last key of the query dict (pagination keys included, since they
are assigned before `continue`).  Only the *shape* of each stage — whether
it was created by the `search_key == 'href'` branch — is fixed at build
time.  The embedding therefore keeps, per stage, only its shape, and
evaluates all stages under the final bindings.

Stages are run here stage-major (each stage filters the whole list) while
CPython forces the chain candidate-major; conditions are evaluated on
exactly the pairs (candidate, stage) such that the candidate passed all
earlier stages, the only possible exception is an `AttributeError` either
way, and `Err` carries no payload, so the two orders yield equal values. -/

/-- The predicate core built for a (key, value) pair: `startswith` on the
stripped prefix for a value ending in `*` (early-bound default argument),
plain equality otherwise (`None` values fall into the equality branch). -/
inductive MatchCore
  | eqVal (v : QVal)
  | starts (start : String)
deriving DecidableEq, Repr

/-- The `matches` object: a core, wrapped for keys `if`/`rt` so that any
whitespace-separated token of the attribute value may match. -/
structure Matcher where
  core : MatchCore
  tok : Bool
deriving DecidableEq, Repr

/-- Build the `matches` lambda for a (key, value) pair. -/
def mkMatcher (k : String) (v : QVal) : Matcher :=
  { core :=
      match v with
      | some s =>
        if s.toList.getLast? = some '*' then
          MatchCore.starts (String.mk s.toList.dropLast)
        else MatchCore.eqVal (some s)
      | none => MatchCore.eqVal none,
    tok := k == "if" || k == "rt" }

/-- Apply a core to a string-or-None attribute value.  `None == v` is just
inequality in Python, but `None.startswith(...)` is an AttributeError. -/
def applyCore : MatchCore → QVal → Except Err Bool
  | .eqVal v, x => .ok (x == v)
  | .starts st, some x => .ok (pyStartswith st x)
  | .starts _, none => .error .attributeError

/-- A core applied to a (string) token produced by `x.split()`. -/
def coreTok : MatchCore → String → Bool
  | .eqVal v, t => some t == v
  | .starts st, t => pyStartswith st t

/-- `matches(x)`: for the token-wrapped matcher, `x.split()` on a `None`
value is an AttributeError. -/
def applyMatcher (m : Matcher) (x : QVal) : Except Err Bool :=
  if m.tok then
    match x with
    | none => .error .attributeError
    | some s => .ok ((pySplitWs s).any (coreTok m.core))
  else applyCore m.core x

/-- Python `any(...)` over a generator of possibly-raising tests. -/
def anyME (p : α → Except Err Bool) : List α → Except Err Bool
  | [] => .ok false
  | a :: rest =>
    match p a with
    | .error e => .error e
    | .ok true => .ok true
    | .ok false => anyME p rest

/-- Python `a or b` over possibly-raising boolean expressions. -/
def orME (a b : Except Err Bool) : Except Err Bool :=
  match a with
  | .error e => .error e
  | .ok true => .ok true
  | .ok false => b

/-- One generator-expression stage: keep the candidates whose condition is
true, propagating the first raised exception. -/
def filterME (p : α → Except Err Bool) : List α → Except Err (List α)
  | [] => .ok []
  | a :: rest =>
    match p a with
    | .error e => .error e
    | .ok true => (filterME p rest).map (a :: ·)
    | .ok false => filterME p rest

/-- `_link_matches(link, key, condition)`. -/
def link_matches (l : Link) (key : String) (m : Matcher) : Except Err Bool :=
  anyME (fun p => if p.1 == key then applyMatcher m p.2 else .ok false)
    l.attr_pairs

/-- Endpoint-view condition of an `href`-shaped stage. -/
def epHrefCond (m : Matcher) (c : Reg) : Except Err Bool :=
  orME (applyMatcher m (some c.href))
    (anyME (fun r => applyMatcher m (some r.href)) (get_based_links c))

/-- Endpoint-view condition of a general stage (under final `search_key`). -/
def epGenCond (m : Matcher) (sk : String) (c : Reg) : Except Err Bool :=
  orME
    (match c.registration_parameters.lookup sk with
     | some vs => anyME (applyMatcher m) vs
     | none => .ok false)
    (anyME (fun r => link_matches r sk m) (get_based_links c))

/-- Resource-view condition of an `href`-shaped stage. -/
def resHrefCond (m : Matcher) (p : Reg × Link) : Except Err Bool :=
  orME (applyMatcher m (some p.2.href)) (applyMatcher m (some p.1.href))

/-- Resource-view condition of a general stage. -/
def resGenCond (m : Matcher) (sk : String) (p : Reg × Link) : Except Err Bool :=
  orME (link_matches p.2 sk m)
    (match p.1.registration_parameters.lookup sk with
     | some vs => anyME (applyMatcher m) vs
     | none => .ok false)

def pagKeys : List String := ["page", "count"]

/-- The (key, value) pairs the two filter loops iterate over. -/
def filterPairs (q : Query) : List (String × QVal) :=
  (q.filter (fun p => !(pagKeys.contains p.1))).flatMap
    (fun p => p.2.map (fun v => (p.1, v)))

/-- Per-stage shape: `true` for stages created by the `href` branch. -/
def stageShapes (q : Query) : List Bool :=
  (filterPairs q).map (fun p => p.1 == "href")

/-- Final value of `search_key` when the chain is forced: the last key of
the query (pagination keys included). -/
def lastSearchKey (q : Query) : Option String := (q.map Prod.fst).getLast?

/-- The pair from which the final `matches` object was built. -/
def lastFilterPair (q : Query) : Option (String × QVal) :=
  (filterPairs q).getLast?

/-- Run the built stages under the final bindings. -/
def runStages (hrefC genC : α → Except Err Bool) :
    List Bool → List α → Except Err (List α)
  | [], cs => .ok cs
  | s :: rest, cs =>
    match filterME (if s then hrefC else genC) cs with
    | .error e => .error e
    | .ok cs' => runStages hrefC genC rest cs'

/-- The filtering part of `EndpointLookupInterface.render_get`. -/
def epFilter (eps : List Reg) (q : Query) : Except Err (List Reg) :=
  match stageShapes q, lastFilterPair q, lastSearchKey q with
  | [], _, _ => .ok eps
  | shapes, some (fk, fv), some sk =>
    let m := mkMatcher fk fv
    runStages (epHrefCond m) (epGenCond m sk) shapes eps
  | _, _, _ => .ok eps  -- unreachable: stages exist only if a pair exists

/-- `EndpointLookupInterface.render_get`: filter, paginate, project to host
links. -/
def ep_lookup (eps : List Reg) (q : Query) : Except Err (List Link) :=
  match paginate (epFilter eps q) q with
  | .error e => .error e
  | .ok cs => .ok (cs.map get_host_link)

/-- The endpoint × resolved-link cross product of resource-lookup. -/
def resCandidates (eps : List Reg) : List (Reg × Link) :=
  eps.flatMap (fun e => (get_based_links e).map (fun c => (e, c)))

/-- The filtering part of `ResourceLookupInterface.render_get` (the
query-processing path, after the OSCORE gate). -/
def resFilter (eps : List Reg) (q : Query) : Except Err (List (Reg × Link)) :=
  match stageShapes q, lastFilterPair q, lastSearchKey q with
  | [], _, _ => .ok (resCandidates eps)
  | shapes, some (fk, fv), some sk =>
    let m := mkMatcher fk fv
    runStages (resHrefCond m) (resGenCond m sk) shapes (resCandidates eps)
  | _, _, _ => .ok (resCandidates eps)

/-- `ResourceLookupInterface.render_get`: filter, strip the endpoint,
paginate. -/
def res_lookup (eps : List Reg) (q : Query) : Except Err (List Link) :=
  paginate ((resFilter eps q).map (List.map Prod.snd)) q

/-- The combination rule exactly as the specification states it (spec-side
definition, kept for comparison with the source-side `epFilter`): filtering
is applied key by key; within one key a candidate survives if ANY of that
key's values matches (OR), hence across distinct keys the result is the
conjunction of the per-key filters (AND).  The per-value predicates and
per-key match targets are the ones the code builds, with the loop variables
bound at build time. -/
def claimEpKeyFilter (k : String) (vs : List QVal) (eps : List Reg) :
    Except Err (List Reg) :=
  filterME (fun c => anyME (fun v =>
    let m := mkMatcher k v
    if k == "href" then epHrefCond m c else epGenCond m k c) vs) eps

def claimEpFilter (eps : List Reg) (q : Query) : Except Err (List Reg) :=
  (q.filter (fun p => !(pagKeys.contains p.1))).foldlM
    (fun acc p => claimEpKeyFilter p.1 p.2 acc) eps


/-! Total (crash-free) forms of the filter conditions, used to state what the
filter computes on well-valued stores (no `None` attribute or parameter
values, so no `AttributeError` can be raised). -/

/-- Total form of `applyMatcher` on present (string) values. -/
def applyMatcherB (m : Matcher) (s : String) : Bool :=
  if m.tok then (pySplitWs s).any (coreTok m.core)
  else
    match m.core with
    | .eqVal v => some s == v
    | .starts st => pyStartswith st s

def Link.wellValued (l : Link) : Bool := l.attr_pairs.all (fun p => p.2.isSome)

/-- All attribute and parameter values present (no valueless query keys were
stored); under this condition the filter conditions cannot raise. -/
def Reg.wellValued (r : Reg) : Bool :=
  r.registration_parameters.all (fun p => p.2.all (·.isSome))
    && r.links.all Link.wellValued

def link_matchesB (l : Link) (key : String) (m : Matcher) : Bool :=
  l.attr_pairs.any (fun p => p.1 == key && applyMatcherB m (p.2.getD ""))

def epHrefCondB (m : Matcher) (c : Reg) : Bool :=
  applyMatcherB m c.href
    || (get_based_links c).any (fun r => applyMatcherB m r.href)

def epGenCondB (m : Matcher) (sk : String) (c : Reg) : Bool :=
  (match c.registration_parameters.lookup sk with
   | some vs => vs.any (fun v => applyMatcherB m (v.getD ""))
   | none => false)
  || (get_based_links c).any (fun r => link_matchesB r sk m)

def resHrefCondB (m : Matcher) (p : Reg × Link) : Bool :=
  applyMatcherB m p.2.href || applyMatcherB m p.1.href

def resGenCondB (m : Matcher) (sk : String) (p : Reg × Link) : Bool :=
  link_matchesB p.2 sk m
    || (match p.1.registration_parameters.lookup sk with
        | some vs => vs.any (fun v => applyMatcherB m (v.getD ""))
        | none => false)

/-! ### Concrete fixtures used by the closed theorems -/

instance {ε α : Type} [DecidableEq ε] [DecidableEq α] : DecidableEq (Except ε α) :=
  fun a b =>
    match a, b with
    | .ok x, .ok y =>
      if h : x = y then .isTrue (by rw [h])
      else .isFalse (by intro hh; cases hh; exact h rfl)
    | .error x, .error y =>
      if h : x = y then .isTrue (by rw [h])
      else .isFalse (by intro hh; cases hh; exact h rfl)
    | .ok _, .error _ => .isFalse (by intro hh; cases hh)
    | .error _, .ok _ => .isFalse (by intro hh; cases hh)

/-- A registration whose `rt` parameter is `alpha`. -/
def regAlpha : Reg :=
  { rid := 1, path := ["reg", "1", ""], links := [],
    registration_parameters := [("rt", [some "alpha"])], lt := 90000,
    base := "coap://h", base_is_explicit := false, timeout := 90015,
    dkey := ("e1", none), dpath := ["1", ""] }

/-- A registration with parameters `a = x`, `b = y`. -/
def regAxBy : Reg :=
  { regAlpha with
      rid := 2,
      registration_parameters := [("a", [some "x"]), ("b", [some "y"])],
      dkey := ("e2", none), dpath := ["2", ""], path := ["reg", "2", ""] }

/-- A registration with parameters `a = q`, `b = y`. -/
def regAqBy : Reg :=
  { regAlpha with
      rid := 3,
      registration_parameters := [("a", [some "q"]), ("b", [some "y"])],
      dkey := ("e3", none), dpath := ["3", ""], path := ["reg", "3", ""] }

/-- A registration with a two-valued `foo` parameter (for `get_host_link`). -/
def regFoo : Reg :=
  { regAlpha with registration_parameters := [("foo", [some "a", some "b"])] }

/-- A registration holding one stored link `</sensor>` and base
`coap://node1/` (for `get_based_links`). -/
def regSensor : Reg :=
  { regAlpha with
      base := "coap://node1/",
      links := [{ href := "/sensor", attr_pairs := [] }] }

/-- A store state in which a (new) registration with identity 2 occupies key
`(ep1, None)` and path tail `1/`. -/
def stateNew : RDState :=
  { byKey := [(("ep1", none), { regAlpha with rid := 2, dkey := ("ep1", none) })],
    byPath := [(["1", ""], { regAlpha with rid := 2, dkey := ("ep1", none) })],
    cbs := [], nextId := 3 }

def regOldC8 : Reg :=
  { rid := 3, path := ["reg", "1", ""], links := [],
    registration_parameters := [("ep", [some "n1"])], lt := 90000,
    base := "coap://old/", base_is_explicit := false, timeout := 90015,
    dkey := ("n1", none), dpath := ["1", ""] }

def stateC8 : RDState :=
  { byKey := [(("n1", none), regOldC8)], byPath := [(["1", ""], regOldC8)],
    cbs := [], nextId := 7 }

def regNewC8 : Reg :=
  { rid := 7, path := ["reg", "1", ""], links := [],
    registration_parameters := [("ep", [some "n1"])], lt := 90000,
    base := "coap://h/", base_is_explicit := false, timeout := 90015,
    dkey := ("n1", none), dpath := ["1", ""] }

def stateC8f : RDState :=
  { byKey := [(("n1", none), regNewC8)], byPath := [(["1", ""], regNewC8)],
    cbs := [], nextId := 8 }

def evsC8 : List Event :=
  [Event.timerCancelled 3, Event.removedMaps 3,
   Event.timerSet 7 90015, Event.installed 7]

/-! ## Theorems settling the claims -/

/-- **C2** — pagination.  `count` alone and `page`+`count` slice as claimed
and non-integer values are `BadRequest`, but `page` *without* `count` is an
uncaught `TypeError` from `int(None)` (the `except` clause names only
`KeyError, ValueError` although its message says "page requires count"), not
the `BadRequest` the claim states. -/
theorem rd_C2_eval :
    paginate (Except.ok [0, 1, 2, 3, 4]) [("page", [some "1"])]
      = Except.error Err.typeError
    ∧ (Except.error Err.typeError : Except Err (List Nat))
      ≠ Except.error Err.badRequest
    ∧ paginate (Except.ok [0, 1, 2, 3, 4])
        [("page", [some "1"]), ("count", [some "2"])] = Except.ok [2, 3]
    ∧ paginate (Except.ok [0, 1, 2, 3, 4]) [("count", [some "2"])]
      = Except.ok [0, 1]
    ∧ paginate (Except.ok [0, 1, 2, 3, 4])
        [("page", [some "x"]), ("count", [some "2"])]
      = Except.error Err.badRequest := by decide

/-- **C4** — `get_host_link` attaches one pair per value per key and the
registration's base as claimed, but its fixed `rt` attribute is the source's
literal `"coire.rd-ep"`, not the claimed `"core.rd-ep"`. -/
theorem rd_C4_eval :
    get_host_link regFoo =
      { href := "/reg/1/",
        attr_pairs :=
          [("foo", some "a"), ("foo", some "b"), ("rt", some "coire.rd-ep")],
        base := some "coap://h" }
    ∧ ("rt", some "core.rd-ep") ∉ (get_host_link regFoo).attr_pairs := by decide

/-- **C9** — `get_based_links` synthesizes `anchor = base` as claimed, but
`urllib.parse.urljoin` leaves references against a `coap://` base unresolved
(`coap` is not in `uses_relative`), so href `/sensor` with base
`coap://node1/` stays `/sensor` instead of the claimed
`coap://node1/sensor`. -/
theorem rd_C9_eval :
    get_based_links regSensor =
      [{ href := "/sensor",
         attr_pairs := [("anchor", some "coap://node1/")], base := none }]
    ∧ pyUrljoin "coap://node1/" "/sensor" = "/sensor"
    ∧ (get_based_links regSensor).map Link.href ≠ ["coap://node1/sensor"] := by
  decide

/-- **C5**, counterexample — with subscribers `[0 (failing), 1]`, the change
notification invokes subscriber 0 and never reaches subscriber 1: a failing
subscriber does prevent the remaining ones from running. -/
theorem rd_C5_cex :
    (updated_state [(0, true), (1, false)]).1 = [Event.notified 0]
    ∧ Event.notified 1 ∉ (updated_state [(0, true), (1, false)]).1 := by decide

/-- **C5**, amended — `_updated_state` invokes subscribers in order up to
and including the first failing one; that subscriber's exception propagates
and the remaining subscribers are not invoked. -/
theorem rd_C5_amended (cbs : List CB) :
    updated_state cbs =
      ((cbs.takeWhile (fun c => !c.2)
          ++ (cbs.dropWhile (fun c => !c.2)).take 1).map
        (fun c => Event.notified c.1),
        if cbs.any (·.2) then some Err.cbError else none) := by
  induction cbs with
  | nil => rfl
  | cons c rest ih =>
    obtain ⟨i, fails⟩ := c
    cases fails with
    | true => simp [updated_state, List.takeWhile_cons, List.dropWhile_cons]
    | false =>
      simp [updated_state, ih, List.takeWhile_cons, List.dropWhile_cons]
      rw [Bool.false_or]

/-- **C3**, counterexample — a store in which a *new* registration (identity
2) occupies key `(ep1, None)` and path `1/`; running the delete callback
belonging to the stale registration with identity 1 nevertheless succeeds
and erases the new registration's entries from both maps. -/
theorem rd_C3_cex :
    (stateNew.byKey.lookup ("ep1", none)).map Reg.rid = some 2
    ∧ ∃ s', (reg_delete stateNew 1 ("ep1", none) ["1", ""]).1 = Except.ok s'
        ∧ s'.byKey.lookup ("ep1", none) = none
        ∧ s'.byPath.lookup ["1", ""] = none :=
  ⟨by decide, { stateNew with byKey := [], byPath := [] },
    by decide, by decide, by decide⟩

/-- **C1**, counterexample — the claimed combination rule (OR within a key,
AND across keys, formalised by `claimEpFilter`) disagrees with the code's
filter: (i) an endpoint whose `rt` is `alpha` is *dropped* by the query
`rt=alpha&rt=beta` (the late-bound predicate of the last value is applied by
every stage), and (ii) with the query `a=x&b=y` an endpoint with `a=q, b=y`
*survives* (every stage tests only the final pair `b=y`). -/
theorem rd_C1_cex :
    epFilter [regAlpha] [("rt", [some "alpha", some "beta"])]
      ≠ claimEpFilter [regAlpha] [("rt", [some "alpha", some "beta"])]
    ∧ epFilter [regAxBy, regAqBy] [("a", [some "x"]), ("b", [some "y"])]
      ≠ claimEpFilter [regAxBy, regAqBy] [("a", [some "x"]), ("b", [some "y"])] := by
  decide

/-! ### Shared helper lemmas -/

theorem exceptBind_ok {ε α β : Type} (x : α) (f : α → Except ε β) :
    (Except.ok x >>= f) = f x := rfl

theorem exceptBind_err {ε α β : Type} (e : ε) (f : α → Except ε β) :
    ((Except.error e : Except ε α) >>= f) = Except.error e := rfl

/-- `pop_single_arg` raises BadRequest ("Multiple values") whenever the key
holds more than one value. -/
theorem popSingleArg_multi (q : Query) (name : String) (v1 v2 : QVal)
    (vs : List QVal) (h : q.lookup name = some (v1 :: v2 :: vs)) :
    pop_single_arg q name = .error .badRequest := by
  unfold pop_single_arg
  rw [h]
  simp

/-- `updTail` (the mutation half of `update_params`) can only escape with an
UnboundLocalError, never a BadRequest. -/
theorem updTail_err (reg : Reg) (isInitial : Bool) (nb : Option String)
    (setLt : Option Int) (setBase : Option String) (p2 : Query) (e : Err)
    (r : Reg) (h : updTail reg isInitial nb setLt setBase p2 = .error (e, r)) :
    e = Err.unboundLocal := by
  unfold updTail at h
  repeat' split at h
  all_goals first
    | (injection h with h1; injection h1 with h2 h3; exact h2.symm)
    | injection h

/-- Multiple `ep` values make `initialize_endpoint` fail before any state
change. -/
theorem init_multi_ep (s : RDState) (origin : Option String) (params : Query)
    (v1 v2 : QVal) (vs : List QVal)
    (h : params.lookup "ep" = some (v1 :: v2 :: vs)) :
    initialize_endpoint s origin params = (.error .badRequest, s, []) := by
  unfold initialize_endpoint
  rw [popSingleArg_multi params "ep" v1 v2 vs h]

/-- Multiple `d` values make `initialize_endpoint` fail before any state
change. -/
theorem init_multi_d (s : RDState) (origin : Option String)
    (params params1 : Query) (ep : String) (v1 v2 : QVal) (vs : List QVal)
    (hep : pop_single_arg params "ep" = .ok (some (some ep), params1))
    (h : params1.lookup "d" = some (v1 :: v2 :: vs)) :
    initialize_endpoint s origin params = (.error .badRequest, s, []) := by
  simp [initialize_endpoint, hep, popSingleArg_multi params1 "d" v1 v2 vs h]

/-- Multiple `lt` values make `update_params` fail with the registration
untouched. -/
theorem upd_multi_lt (reg : Reg) (origin : Option String) (params : Query)
    (isInitial : Bool) (v1 v2 : QVal) (vs : List QVal)
    (h1 : params.any (fun p => p.1 == "ep" || p.1 == "d") = false)
    (h2 : params.any (fun p => p.1 == "page" || p.1 == "count" || p.1 == "rt"
      || p.1 == "href" || p.1 == "anchor") = false)
    (h : params.lookup "lt" = some (v1 :: v2 :: vs)) :
    update_params reg origin params isInitial = .error (.badRequest, reg) := by
  simp [update_params, h1, h2, popSingleArg_multi params "lt" v1 v2 vs h]

/-- Multiple `base` values make `update_params` fail with the registration
untouched. -/
theorem upd_multi_base (reg : Reg) (origin : Option String)
    (params params1 : Query) (isInitial : Bool) (ltv : Option QVal)
    (setLt : Option Int) (v1 v2 : QVal) (vs : List QVal)
    (h1 : params.any (fun p => p.1 == "ep" || p.1 == "d") = false)
    (h2 : params.any (fun p => p.1 == "page" || p.1 == "count" || p.1 == "rt"
      || p.1 == "href" || p.1 == "anchor") = false)
    (hlt : pop_single_arg params "lt" = .ok (ltv, params1))
    (hpl : parseLt ltv = .ok setLt)
    (h : params1.lookup "base" = some (v1 :: v2 :: vs)) :
    update_params reg origin params isInitial = .error (.badRequest, reg) := by
  simp [update_params, h1, h2, hlt, hpl,
    popSingleArg_multi params1 "base" v1 v2 vs h]

/-- Multiple `page` values make `_paginate` fail with BadRequest. -/
theorem pag_multi_page {α : Type} (cands : Except Err (List α)) (q : Query)
    (v1 v2 : QVal) (vs : List QVal)
    (h : q.lookup "page" = some (v1 :: v2 :: vs)) :
    paginate cands q = .error .badRequest := by
  simp [paginate, exceptBind_err, popSingleArg_multi q "page" v1 v2 vs h]

/-- Multiple `count` values make `_paginate` fail with BadRequest. -/
theorem pag_multi_count {α : Type} (cands : Except Err (List α)) (q q1 : Query)
    (pv : Option QVal) (v1 v2 : QVal) (vs : List QVal)
    (hp : pop_single_arg q "page" = .ok (pv, q1))
    (h : q1.lookup "count" = some (v1 :: v2 :: vs)) :
    paginate cands q = .error .badRequest := by
  simp [paginate, hp, exceptBind_ok, exceptBind_err,
    popSingleArg_multi q1 "count" v1 v2 vs h]

/-- **C6** — whenever `update_params` fails with BadRequest (identity keys,
reserved keys, multiple/`None`/non-numeric `lt` or multiple `base` values,
missing base with an anonymous origin), the escaping exception carries the
registration exactly as it was before the call: validation precedes
mutation, with no partial application.  (The only mutating escape is the
UnboundLocalError path, which is a different exception class.) -/
theorem rd_C6 (reg : Reg) (origin : Option String) (params : Query)
    (isInitial : Bool) (reg' : Reg)
    (h : update_params reg origin params isInitial
      = .error (.badRequest, reg')) :
    reg' = reg := by
  unfold update_params at h
  repeat' split at h
  all_goals
    first
      | (injection h with h1; injection h1 with h2 h3; exact h3.symm)
      | injection h
      | (exact absurd (updTail_err _ _ _ _ _ _ _ _ h) (by intro hh; cases hh))

/-- Witness for C6 at a concrete failing input (an `ep` update attempt). -/
theorem rd_C6_witness :
    update_params regAlpha (some "coap://o") [("ep", [some "x"])] false
      = Except.error (Err.badRequest, regAlpha)
    ∧ regAlpha = regAlpha :=
  ⟨by decide,
    rd_C6 regAlpha (some "coap://o") [("ep", [some "x"])] false regAlpha
      (by decide)⟩

/-- **C10** — every single-valued parameter fails with BadRequest when
supplied more than one value, before any state change: `ep`/`d` in
`initialize_endpoint` (state and trace unchanged), `lt`/`base` in
`update_params` (registration unchanged), `page`/`count` in `_paginate`. -/
theorem rd_C10 :
    (∀ (q : Query) (name : String) (v1 v2 : QVal) (vs : List QVal),
      q.lookup name = some (v1 :: v2 :: vs) →
      pop_single_arg q name = .error .badRequest)
    ∧ (∀ (s : RDState) (origin : Option String) (params : Query)
        (v1 v2 : QVal) (vs : List QVal),
        params.lookup "ep" = some (v1 :: v2 :: vs) →
        initialize_endpoint s origin params = (.error .badRequest, s, []))
    ∧ (∀ (s : RDState) (origin : Option String) (params params1 : Query)
        (ep : String) (v1 v2 : QVal) (vs : List QVal),
        pop_single_arg params "ep" = .ok (some (some ep), params1) →
        params1.lookup "d" = some (v1 :: v2 :: vs) →
        initialize_endpoint s origin params = (.error .badRequest, s, []))
    ∧ (∀ (reg : Reg) (origin : Option String) (params : Query)
        (isInitial : Bool) (v1 v2 : QVal) (vs : List QVal),
        params.any (fun p => p.1 == "ep" || p.1 == "d") = false →
        params.any (fun p => p.1 == "page" || p.1 == "count" || p.1 == "rt"
          || p.1 == "href" || p.1 == "anchor") = false →
        params.lookup "lt" = some (v1 :: v2 :: vs) →
        update_params reg origin params isInitial = .error (.badRequest, reg))
    ∧ (∀ (reg : Reg) (origin : Option String) (params params1 : Query)
        (isInitial : Bool) (ltv : Option QVal) (setLt : Option Int)
        (v1 v2 : QVal) (vs : List QVal),
        params.any (fun p => p.1 == "ep" || p.1 == "d") = false →
        params.any (fun p => p.1 == "page" || p.1 == "count" || p.1 == "rt"
          || p.1 == "href" || p.1 == "anchor") = false →
        pop_single_arg params "lt" = .ok (ltv, params1) →
        parseLt ltv = .ok setLt →
        params1.lookup "base" = some (v1 :: v2 :: vs) →
        update_params reg origin params isInitial = .error (.badRequest, reg))
    ∧ (∀ (α : Type) (cands : Except Err (List α)) (q : Query) (v1 v2 : QVal)
        (vs : List QVal), q.lookup "page" = some (v1 :: v2 :: vs) →
        paginate cands q = .error .badRequest)
    ∧ (∀ (α : Type) (cands : Except Err (List α)) (q q1 : Query)
        (pv : Option QVal) (v1 v2 : QVal) (vs : List QVal),
        pop_single_arg q "page" = .ok (pv, q1) →
        q1.lookup "count" = some (v1 :: v2 :: vs) →
        paginate cands q = .error .badRequest) :=
  ⟨popSingleArg_multi, init_multi_ep, init_multi_d, upd_multi_lt,
    upd_multi_base, fun _ => pag_multi_page, fun _ => pag_multi_count⟩

/-- Witness for C10: each multiple-value scenario at a concrete input whose
values would individually be acceptable. -/
theorem rd_C10_witness :
    pop_single_arg [("x", [some "1", some "2"])] "x" = .error .badRequest
    ∧ initialize_endpoint ⟨[], [], [], 0⟩ (some "coap://o")
        [("ep", [some "a", some "b"])]
      = (.error .badRequest, ⟨[], [], [], 0⟩, [])
    ∧ initialize_endpoint ⟨[], [], [], 0⟩ (some "coap://o")
        [("ep", [some "a"]), ("d", [some "x", some "y"])]
      = (.error .badRequest, ⟨[], [], [], 0⟩, [])
    ∧ update_params regAlpha (some "coap://o")
        [("lt", [some "1", some "2"])] false
      = .error (.badRequest, regAlpha)
    ∧ update_params regAlpha (some "coap://o")
        [("base", [some "coap://u", some "coap://v"])] false
      = .error (.badRequest, regAlpha)
    ∧ paginate (Except.ok ([0] : List Nat)) [("page", [some "1", some "2"])]
      = .error .badRequest
    ∧ paginate (Except.ok ([0] : List Nat)) [("count", [some "1", some "2"])]
      = .error .badRequest :=
  ⟨rd_C10.1 _ "x" (some "1") (some "2") [] (by decide),
    rd_C10.2.1 _ _ _ (some "a") (some "b") [] (by decide),
    rd_C10.2.2.1 _ _ _ [("d", [some "x", some "y"])] "a" (some "x")
      (some "y") [] (by decide) (by decide),
    rd_C10.2.2.2.1 _ _ _ _ (some "1") (some "2") [] (by decide) (by decide)
      (by decide),
    rd_C10.2.2.2.2.1 _ _ _
      [("base", [some "coap://u", some "coap://v"])] _ none none
      (some "coap://u") (some "coap://v") [] (by decide) (by decide)
      (by decide) (by decide) (by decide),
    rd_C10.2.2.2.2.2.1 _ _ _ (some "1") (some "2") [] (by decide),
    rd_C10.2.2.2.2.2.2 _ _ _ [("count", [some "1", some "2"])] none
      (some "1") (some "2") [] (by decide) (by decide)⟩

/-- `_updated_state` with no failing subscriber notifies all of them in
order and raises nothing. -/
theorem updatedState_noFail (cbs : List CB) (h : ∀ cb ∈ cbs, cb.2 = false) :
    updated_state cbs = (cbs.map (fun c => Event.notified c.1), none) := by
  induction cbs with
  | nil => rfl
  | cons c rest ih =>
    obtain ⟨i, fails⟩ := c
    have hc : fails = false := h (i, fails) (by simp)
    subst hc
    simp [updated_state, ih (fun cb hcb => h cb (by simp [hcb]))]

theorem lookup_any {κ β : Type} [BEq κ] [LawfulBEq κ] (l : List (κ × β))
    (k : κ) (v : β) (h : l.lookup k = some v) : l.any (·.1 == k) = true := by
  induction l with
  | nil => cases h
  | cons p rest ih =>
    rw [List.any_cons]
    by_cases hk : k = p.1
    · simp [hk]
    · have : (k == p.1) = false := by simp [hk]
      rw [List.lookup_cons, this] at h
      simp [ih h]

theorem lookup_filter_ne {κ β : Type} [BEq κ] [LawfulBEq κ]
    (l : List (κ × β)) (k : κ) :
    (l.filter (fun p => !(p.1 == k))).lookup k = none := by
  induction l with
  | nil => rfl
  | cons p rest ih =>
    by_cases hk : p.1 = k
    · simp [List.filter_cons, hk, ih]
    · have h1 : (!(p.1 == k)) = true := by simp [hk]
      have h2 : (k == p.1) = false := by simp [Ne.symm hk]
      rw [List.filter_cons, if_pos h1, List.lookup_cons, h2]
      exact ih

/-- **C3**, amended — the injected delete callback performs no identity
check: whenever its captured key and path are present in the maps (and no
subscriber fails), running it on behalf of *any* registration identity
`rid` succeeds and unconditionally removes whatever currently occupies that
key and path — so a stale timer fire erases a newly-created Registration
installed at the same key/path. -/
theorem rd_C3_amended (s : RDState) (rid : Nat) (key : String × Option String)
    (path : List String) (r : Reg)
    (hk : s.byKey.lookup key = some r)
    (hp : s.byPath.any (·.1 == path) = true)
    (hcb : ∀ cb ∈ s.cbs, cb.2 = false) :
    ∃ s', (reg_delete s rid key path).1 = .ok s'
      ∧ s'.byKey.lookup key = none ∧ s'.byPath.lookup path = none := by
  have h1 : pyDelAssoc s.byPath path
      = .ok (s.byPath.filter (fun p => !(p.1 == path))) := by
    unfold pyDelAssoc; rw [if_pos hp]
  have h2 : pyDelAssoc s.byKey key
      = .ok (s.byKey.filter (fun p => !(p.1 == key))) := by
    unfold pyDelAssoc; rw [if_pos (lookup_any s.byKey key r hk)]
  refine ⟨{ s with
      byPath := s.byPath.filter (fun p => !(p.1 == path)),
      byKey := s.byKey.filter (fun p => !(p.1 == key)) }, ?_, ?_, ?_⟩
  · simp [reg_delete, updatedState_noFail s.cbs hcb, deleteCb, h1, h2]
  · exact lookup_filter_ne s.byKey key
  · exact lookup_filter_ne s.byPath path

/-- Witness for the amended C3 at the concrete stale-fire state. -/
theorem rd_C3_amended_witness :
    ∃ s', (reg_delete stateNew 1 ("ep1", none) ["1", ""]).1 = .ok s'
      ∧ s'.byKey.lookup ("ep1", none) = none
      ∧ s'.byPath.lookup ["1", ""] = none :=
  rd_C3_amended stateNew 1 ("ep1", none) ["1", ""]
    { regAlpha with rid := 2, dkey := ("ep1", none) }
    (by decide) (by decide) (by intro cb hcb; cases hcb)


theorem applyMatcher_some (m : Matcher) (s : String) :
    applyMatcher m (some s) = .ok (applyMatcherB m s) := by
  obtain ⟨core, tok⟩ := m
  cases tok <;> cases core <;> rfl

theorem orME_ok (a b : Bool) : orME (.ok a) (.ok b) = .ok (a || b) := by
  cases a <;> rfl

theorem anyME_ok {α : Type} (l : List α) (p : α → Except Err Bool)
    (pb : α → Bool) (h : ∀ a ∈ l, p a = .ok (pb a)) :
    anyME p l = .ok (l.any pb) := by
  induction l with
  | nil => rfl
  | cons a rest ih =>
    rw [List.any_cons]
    unfold anyME
    rw [h a (by simp)]
    cases hpa : pb a
    · simp [ih (fun x hx => h x (by simp [hx]))]
    · simp

theorem filterME_ok {α : Type} (l : List α) (p : α → Except Err Bool)
    (pb : α → Bool) (h : ∀ a ∈ l, p a = .ok (pb a)) :
    filterME p l = .ok (l.filter pb) := by
  induction l with
  | nil => rfl
  | cons a rest ih =>
    rw [List.filter_cons]
    unfold filterME
    rw [h a (by simp)]
    have hr := ih (fun x hx => p x |> fun _ => h x (by simp [hx]))
    cases hpa : pb a <;> simp [hpa, hr, Except.map]

theorem lookup_mem {κ β : Type} [BEq κ] (l : List (κ × β)) (k : κ) (v : β)
    (h : l.lookup k = some v) : ∃ k', (k', v) ∈ l := by
  induction l with
  | nil => cases h
  | cons p rest ih =>
    rw [List.lookup_cons] at h
    cases hk : (k == p.1) with
    | true =>
      rw [hk] at h
      injection h with h1
      exact ⟨p.1, by simp [← h1]⟩
    | false =>
      rw [hk] at h
      obtain ⟨k', hk'⟩ := ih h
      exact ⟨k', by simp [hk']⟩

theorem based_wv (r : Reg) (hw : r.wellValued = true) :
    ∀ bl ∈ get_based_links r, bl.attr_pairs.all (fun p => p.2.isSome) = true := by
  intro bl hbl
  unfold get_based_links at hbl
  rw [List.mem_map] at hbl
  obtain ⟨l, hl, rfl⟩ := hbl
  have hlw : l.attr_pairs.all (fun p => p.2.isSome) = true := by
    unfold Reg.wellValued at hw
    rw [Bool.and_eq_true] at hw
    have := hw.2
    rw [List.all_eq_true] at this
    exact this l hl
  cases hv : l.anchorVal with
  | none => simp [hv, List.all_append, hlw]
  | some v =>
    simp [hv, List.all_append]
    rw [List.all_eq_true] at hlw
    intro a b hab
    exact Or.inr (hlw (a, b) hab)

theorem link_matches_ok (l : Link) (sk : String) (m : Matcher)
    (hl : l.attr_pairs.all (fun p => p.2.isSome) = true) :
    link_matches l sk m = .ok (link_matchesB l sk m) := by
  unfold link_matches link_matchesB
  apply anyME_ok
  intro p hp
  rw [List.all_eq_true] at hl
  have hps := hl p hp
  obtain ⟨s, hs⟩ := Option.isSome_iff_exists.mp hps
  cases hk : (p.1 == sk)
  · simp [hk]
  · simp [hk, hs, applyMatcher_some]

theorem epHrefCond_ok (m : Matcher) (c : Reg) :
    epHrefCond m c = .ok (epHrefCondB m c) := by
  unfold epHrefCond epHrefCondB
  rw [applyMatcher_some,
    anyME_ok _ _ (fun r => applyMatcherB m r.href)
      (fun r _ => applyMatcher_some m r.href),
    orME_ok]

theorem epGenCond_ok (m : Matcher) (sk : String) (c : Reg)
    (hw : c.wellValued = true) :
    epGenCond m sk c = .ok (epGenCondB m sk c) := by
  unfold epGenCond epGenCondB
  have hlinks : anyME (fun r => link_matches r sk m) (get_based_links c)
      = .ok ((get_based_links c).any (fun r => link_matchesB r sk m)) :=
    anyME_ok _ _ _ (fun r hr => link_matches_ok r sk m (based_wv c hw r hr))
  split
  next vs hlk =>
    have hvs : ∀ v ∈ vs, v.isSome = true := by
      obtain ⟨k', hmem⟩ := lookup_mem _ _ _ hlk
      unfold Reg.wellValued at hw
      rw [Bool.and_eq_true] at hw
      have h1 := hw.1
      rw [List.all_eq_true] at h1
      have := h1 (k', vs) hmem
      rw [List.all_eq_true] at this
      exact this
    have hparams : anyME (applyMatcher m) vs
        = .ok (vs.any (fun v => applyMatcherB m (v.getD ""))) := by
      apply anyME_ok
      intro v hv
      obtain ⟨s, hs⟩ := Option.isSome_iff_exists.mp (hvs v hv)
      simp [hs, applyMatcher_some]
    rw [hparams, hlinks, orME_ok]
  next hlk =>
    rw [hlinks]
    exact orME_ok false _

theorem resHrefCond_ok (m : Matcher) (p : Reg × Link) :
    resHrefCond m p = .ok (resHrefCondB m p) := by
  unfold resHrefCond resHrefCondB
  rw [applyMatcher_some, applyMatcher_some, orME_ok]

theorem resGenCond_ok (m : Matcher) (sk : String) (p : Reg × Link)
    (hwe : p.1.wellValued = true)
    (hwl : p.2.attr_pairs.all (fun q => q.2.isSome) = true) :
    resGenCond m sk p = .ok (resGenCondB m sk p) := by
  unfold resGenCond resGenCondB
  rw [link_matches_ok p.2 sk m hwl]
  split
  next vs hlk =>
    have hvs : ∀ v ∈ vs, v.isSome = true := by
      obtain ⟨k', hmem⟩ := lookup_mem _ _ _ hlk
      unfold Reg.wellValued at hwe
      rw [Bool.and_eq_true] at hwe
      have h1 := hwe.1
      rw [List.all_eq_true] at h1
      have := h1 (k', vs) hmem
      rw [List.all_eq_true] at this
      exact this
    have hparams : anyME (applyMatcher m) vs
        = .ok (vs.any (fun v => applyMatcherB m (v.getD ""))) := by
      apply anyME_ok
      intro v hv
      obtain ⟨s, hs⟩ := Option.isSome_iff_exists.mp (hvs v hv)
      simp [hs, applyMatcher_some]
    rw [hparams, orME_ok]
  next hlk =>
    exact orME_ok _ false

theorem runStages_ok {α : Type} (hrefC genC : α → Except Err Bool)
    (hB gB : α → Bool) (shapes : List Bool) (cs : List α)
    (hh : ∀ c ∈ cs, hrefC c = .ok (hB c))
    (hg : ∀ c ∈ cs, genC c = .ok (gB c)) :
    runStages hrefC genC shapes cs
      = .ok (cs.filter (fun c =>
          shapes.all (fun s => if s then hB c else gB c))) := by
  induction shapes generalizing cs with
  | nil => simp [runStages]
  | cons s rest ih =>
    unfold runStages
    have hf : filterME (if s = true then hrefC else genC) cs
        = .ok (cs.filter (fun c => if s then hB c else gB c)) := by
      cases s
      · simpa using filterME_ok cs genC gB hg
      · simpa using filterME_ok cs hrefC hB hh
    rw [hf]
    show runStages hrefC genC rest
        (cs.filter (fun c => if s = true then hB c else gB c)) = _
    rw [ih _ (fun c hc => hh c (List.mem_of_mem_filter hc))
        (fun c hc => hg c (List.mem_of_mem_filter hc)),
      List.filter_filter]
    refine congrArg Except.ok (List.filter_congr ?_)
    intro c _
    rw [List.all_cons]
    exact Bool.and_comm _ _

theorem lastFilterPair_none (q : Query) (h : stageShapes q = []) :
    lastFilterPair q = none := by
  unfold stageShapes at h
  unfold lastFilterPair
  rw [List.map_eq_nil_iff] at h
  rw [h]
  rfl

theorem epFilter_char (eps : List Reg) (q : Query) (fk : String) (fv : QVal)
    (sk : String) (hw : ∀ r ∈ eps, r.wellValued = true)
    (hpair : lastFilterPair q = some (fk, fv))
    (hkey : lastSearchKey q = some sk) :
    epFilter eps q = .ok (eps.filter (fun c =>
      (stageShapes q).all (fun s =>
        if s then epHrefCondB (mkMatcher fk fv) c
        else epGenCondB (mkMatcher fk fv) sk c))) := by
  unfold epFilter
  cases hs : stageShapes q with
  | nil => exact absurd hpair (by rw [lastFilterPair_none q hs]; simp)
  | cons s rest =>
    rw [hpair, hkey]
    show runStages (epHrefCond (mkMatcher fk fv))
        (epGenCond (mkMatcher fk fv) sk) (s :: rest) eps = _
    exact runStages_ok _ _ _ _ (s :: rest) eps
      (fun c _ => epHrefCond_ok (mkMatcher fk fv) c)
      (fun c hc => epGenCond_ok (mkMatcher fk fv) sk c (hw c hc))

theorem resCand_mem (eps : List Reg) (p : Reg × Link)
    (h : p ∈ resCandidates eps) :
    p.1 ∈ eps ∧ p.2 ∈ get_based_links p.1 := by
  unfold resCandidates at h
  rw [List.mem_flatMap] at h
  obtain ⟨e, he, hp⟩ := h
  rw [List.mem_map] at hp
  obtain ⟨c, hc, rfl⟩ := hp
  exact ⟨he, hc⟩

theorem resFilter_char (eps : List Reg) (q : Query) (fk : String) (fv : QVal)
    (sk : String) (hw : ∀ r ∈ eps, r.wellValued = true)
    (hpair : lastFilterPair q = some (fk, fv))
    (hkey : lastSearchKey q = some sk) :
    resFilter eps q = .ok ((resCandidates eps).filter (fun p =>
      (stageShapes q).all (fun s =>
        if s then resHrefCondB (mkMatcher fk fv) p
        else resGenCondB (mkMatcher fk fv) sk p))) := by
  unfold resFilter
  cases hs : stageShapes q with
  | nil => exact absurd hpair (by rw [lastFilterPair_none q hs]; simp)
  | cons s rest =>
    rw [hpair, hkey]
    show runStages (resHrefCond (mkMatcher fk fv))
        (resGenCond (mkMatcher fk fv) sk) (s :: rest) (resCandidates eps) = _
    refine runStages_ok _ _ _ _ (s :: rest) (resCandidates eps)
      (fun p _ => resHrefCond_ok (mkMatcher fk fv) p)
      (fun p hp => ?_)
    obtain ⟨he, hl⟩ := resCand_mem eps p hp
    exact resGenCond_ok (mkMatcher fk fv) sk p (hw p.1 he)
      (based_wv p.1 (hw p.1 he) p.2 hl)


/-- **C1**, amended — when the query holds at least one non-pagination
filter pair and the store is well-valued, both lookups compute: every stage
applies the predicate of the *final* filter pair `(fk, fv)` under the final
`search_key` `sk`; a candidate survives iff it passes that predicate's
condition for every stage shape in the chain. -/
theorem rd_C1_amended (eps : List Reg) (q : Query) (fk : String) (fv : QVal)
    (sk : String) (hw : ∀ r ∈ eps, r.wellValued = true)
    (hpair : lastFilterPair q = some (fk, fv))
    (hkey : lastSearchKey q = some sk) :
    epFilter eps q = .ok (eps.filter (fun c =>
      (stageShapes q).all (fun s =>
        if s then epHrefCondB (mkMatcher fk fv) c
        else epGenCondB (mkMatcher fk fv) sk c)))
    ∧ resFilter eps q = .ok ((resCandidates eps).filter (fun p =>
      (stageShapes q).all (fun s =>
        if s then resHrefCondB (mkMatcher fk fv) p
        else resGenCondB (mkMatcher fk fv) sk p))) :=
  ⟨epFilter_char eps q fk fv sk hw hpair hkey,
    resFilter_char eps q fk fv sk hw hpair hkey⟩

/-- Witness for the amended C1 at a concrete store and query. -/
theorem rd_C1_amended_witness :
    (∀ r ∈ [regAlpha], r.wellValued = true)
    ∧ lastFilterPair [("rt", [some "alpha"])] = some ("rt", some "alpha")
    ∧ lastSearchKey [("rt", [some "alpha"])] = some "rt"
    ∧ (epFilter [regAlpha] [("rt", [some "alpha"])]
        = .ok ([regAlpha].filter (fun c =>
          (stageShapes [("rt", [some "alpha"])]).all (fun s =>
            if s then epHrefCondB (mkMatcher "rt" (some "alpha")) c
            else epGenCondB (mkMatcher "rt" (some "alpha")) "rt" c)))
      ∧ resFilter [regAlpha] [("rt", [some "alpha"])]
        = .ok ((resCandidates [regAlpha]).filter (fun p =>
          (stageShapes [("rt", [some "alpha"])]).all (fun s =>
            if s then resHrefCondB (mkMatcher "rt" (some "alpha")) p
            else resGenCondB (mkMatcher "rt" (some "alpha")) "rt" p)))) := by
  have hwv : ∀ r ∈ [regAlpha], r.wellValued = true := by
    intro r hr
    rw [List.mem_singleton] at hr
    subst hr
    decide
  exact ⟨hwv, rfl, rfl,
    rd_C1_amended [regAlpha] _ "rt" (some "alpha") "rt" hwv rfl rfl⟩


theorem ltStage_fields (r : Reg) (a : Bool) (sl : Option Int) :
    (ltStage (r, a) sl).1.base = r.base
    ∧ (ltStage (r, a) sl).1.base_is_explicit = r.base_is_explicit
    ∧ (ltStage (r, a) sl).1.registration_parameters
        = r.registration_parameters
    ∧ ((ltStage (r, a) sl).2 = true
        ↔ (a = true ∨ (ltStage (r, a) sl).1.lt ≠ r.lt)) := by
  unfold ltStage
  cases sl with
  | none => simp
  | some n =>
    by_cases hn : r.lt = n
    · simp [hn]
    · simp [hn]
      exact Or.inr (fun h => hn h.symm)

theorem netBase_false_char (r : Reg) (a : Bool) (nb : Option String)
    (st' : Reg × Bool) (h : netBaseStage false (r, a) nb = .ok st') :
    st'.1.lt = r.lt
    ∧ st'.1.registration_parameters = r.registration_parameters
    ∧ (st'.2 = true ↔ (a = true ∨ st'.1.base ≠ r.base)) := by
  unfold netBaseStage at h
  repeat' split at h
  all_goals
    first
      | contradiction
      | (injection h; done)
      | (injection h with h1; subst h1; simp; done)
      | (injection h with h1; subst h1; simp [eq_comm]; done)
      | (rename_i hne
         injection h with h1
         subst h1
         simp
         exact Or.inr (fun hc => hne hc.symm))

theorem baseNet_false (r : Reg) (a : Bool) (sb nb : Option String)
    (st' : Reg × Bool)
    (h : netBaseStage false (baseStage false (r, a) sb) nb = .ok st') :
    st'.1.lt = r.lt
    ∧ st'.1.registration_parameters = r.registration_parameters
    ∧ (st'.2 = true ↔ (a = true ∨ st'.1.base ≠ r.base)) := by
  rcases sb with _ | b
  · exact netBase_false_char r a nb st' h
  · by_cases hb : r.base = b
    · have heq : baseStage false (r, a) (some b) = (r, a) := by
        unfold baseStage; simp [hb]
      rw [heq] at h
      exact netBase_false_char r a nb st' h
    · have heq : baseStage false (r, a) (some b)
          = ({ r with base := b, base_is_explicit := true }, true) := by
        unfold baseStage; simp [hb]
      rw [heq] at h
      have hex : netBaseStage false
            ({ r with base := b, base_is_explicit := true }, true) nb
          = .ok ({ r with base := b, base_is_explicit := true }, true) := by
        unfold netBaseStage; simp
      rw [hex] at h
      injection h with h1
      subst h1
      simp
      exact Or.inr (fun hc => hb hc.symm)

theorem lookup_append_right {κ β : Type} [BEq κ] [LawfulBEq κ] (d l : List (κ × β)) (k : κ)
    (h : d.lookup k = none) : (d ++ l).lookup k = l.lookup k := by
  induction d with
  | nil => rfl
  | cons p rest ih =>
    rw [List.lookup_cons] at h
    rw [List.cons_append, List.lookup_cons]
    cases hk : (k == p.1)
    · rw [hk] at h
      exact ih h
    · rw [hk] at h
      cases h

theorem any_false_lookup {κ β : Type} [BEq κ] [LawfulBEq κ] (d : List (κ × β)) (k : κ)
    (h : d.any (·.1 == k) = false) : d.lookup k = none := by
  induction d with
  | nil => rfl
  | cons p rest ih =>
    rw [List.any_cons] at h
    rw [Bool.or_eq_false_iff] at h
    rw [List.lookup_cons]
    have : (k == p.1) = false := by
      have := h.1
      rw [beq_eq_false_iff_ne] at this ⊢
      exact fun hh => this hh.symm
    rw [this]
    exact ih h.2

theorem lookup_map_replace {κ β : Type} [BEq κ] [LawfulBEq κ] (d : List (κ × β)) (k : κ)
    (v : β) :
    (d.map (fun q => if q.1 == k then (k, v) else q)).lookup k
      = if d.any (·.1 == k) then some v else none := by
  induction d with
  | nil => rfl
  | cons p rest ih =>
    rw [List.map_cons, List.any_cons]
    cases hk : (p.1 == k)
    · have hk2 : (k == p.1) = false := by
        rw [beq_eq_false_iff_ne] at hk ⊢
        exact fun hh => hk hh.symm
      rw [if_neg (by simp [hk]), List.lookup_cons, hk2, Bool.false_or, ih]
    · rw [if_pos (by simp [hk]), Bool.true_or, List.lookup_cons,
        show (k == (k, v).1) = true from beq_self_eq_true k]
      rfl

theorem lookup_pyDictSet_self {κ β : Type} [BEq κ] [LawfulBEq κ] (d : List (κ × β)) (k : κ)
    (v : β) : (pyDictSet d k v).lookup k = some v := by
  unfold pyDictSet
  split
  next hany =>
    rw [lookup_map_replace, if_pos hany]
  next hany =>
    rw [lookup_append_right _ _ _
      (any_false_lookup d k (Bool.eq_false_iff.mpr hany)), List.lookup_cons,
      beq_self_eq_true]

theorem lookup_map_replace_other {κ β : Type} [BEq κ] [LawfulBEq κ] (d : List (κ × β))
    (k k' : κ) (v : β) (hne : (k' == k) = false) :
    (d.map (fun q => if q.1 == k then (k, v) else q)).lookup k'
      = d.lookup k' := by
  induction d with
  | nil => rfl
  | cons p rest ih =>
    rw [List.map_cons, List.lookup_cons, List.lookup_cons]
    cases hk : (p.1 == k)
    · rw [if_neg (by simp [hk])]
      cases hkp : (k' == p.1)
      · exact ih
      · rfl
    · rw [if_pos (by simp [hk])]
      have hkp : (k' == p.1) = false := by
        rw [beq_iff_eq] at hk
        rw [hk]
        exact hne
      rw [show (k' == (k, v).1) = false from hne, hkp]
      exact ih

theorem lookup_append_single_other {κ β : Type} [BEq κ] [LawfulBEq κ] (d : List (κ × β))
    (k k' : κ) (v : β) (hne : (k' == k) = false) :
    (d ++ [(k, v)]).lookup k' = d.lookup k' := by
  induction d with
  | nil => simp [List.lookup_cons, hne]
  | cons p rest ih =>
    rw [List.cons_append, List.lookup_cons, List.lookup_cons]
    cases hkp : (k' == p.1)
    · exact ih
    · rfl

theorem lookup_pyDictSet_other {κ β : Type} [BEq κ] [LawfulBEq κ] (d : List (κ × β))
    (k k' : κ) (v : β) (hne : k' ≠ k) :
    (pyDictSet d k v).lookup k' = d.lookup k' := by
  have hk'k : (k' == k) = false := beq_eq_false_iff_ne.mpr hne
  unfold pyDictSet
  split
  · exact lookup_map_replace_other d k k' v hk'k
  · exact lookup_append_single_other d k k' v hk'k

theorem lookup_dictUpdate_notin {κ β : Type} [BEq κ] [LawfulBEq κ] (u d : List (κ × β))
    (k : κ) (h : ∀ p ∈ u, p.1 ≠ k) :
    (dictUpdate d u).lookup k = d.lookup k := by
  induction u generalizing d with
  | nil => rfl
  | cons p rest ih =>
    show (dictUpdate (pyDictSet d p.1 p.2) rest).lookup k = _
    rw [ih (pyDictSet d p.1 p.2) (fun q hq => h q (by simp [hq])),
      lookup_pyDictSet_other _ _ _ _ (fun hh => h p (by simp) hh.symm)]

theorem lookup_dictUpdate_mem {κ β : Type} [BEq κ] [LawfulBEq κ] (u d : List (κ × β))
    (k : κ) (v : β) (hnd : (u.map Prod.fst).Nodup) (hmem : (k, v) ∈ u) :
    (dictUpdate d u).lookup k = some v := by
  induction u generalizing d with
  | nil => cases hmem
  | cons p rest ih =>
    rw [List.map_cons, List.nodup_cons] at hnd
    rw [List.mem_cons] at hmem
    show (dictUpdate (pyDictSet d p.1 p.2) rest).lookup k = some v
    cases hmem with
    | inl hp =>
      subst hp
      rw [lookup_dictUpdate_notin rest _ _
        (fun q hq hqk =>
          hnd.1 (by
            have hm : q.1 ∈ List.map Prod.fst rest :=
              List.mem_map_of_mem Prod.fst hq
            rw [hqk] at hm
            exact hm)),
        lookup_pyDictSet_self]
    | inr hrest =>
      exact ih (pyDictSet d p.1 p.2) hnd.2 hrest

theorem rpStage_char (r : Reg) (a : Bool) (p2 : Query)
    (hnd : (p2.map Prod.fst).Nodup) :
    (rpStage (r, a) p2).1.lt = r.lt
    ∧ (rpStage (r, a) p2).1.base = r.base
    ∧ (rpStage (r, a) p2).1.timeout = r.timeout
    ∧ ((rpStage (r, a) p2).2 = true
        ↔ (a = true ∨ (rpStage (r, a) p2).1.registration_parameters
            ≠ r.registration_parameters)) := by
  unfold rpStage
  split
  next hcond =>
    refine ⟨rfl, rfl, rfl, iff_of_true rfl (Or.inr (fun heq => ?_))⟩
    rw [List.any_eq_true] at hcond
    obtain ⟨p, hp, hdiff⟩ := hcond
    have h1 : (dictUpdate r.registration_parameters p2).lookup p.1
        = some p.2 := by
      apply lookup_dictUpdate_mem p2 _ _ _ hnd
      rw [show (p.1, p.2) = p from rfl]
      exact hp
    have heq2 : dictUpdate r.registration_parameters p2
        = r.registration_parameters := heq
    rw [heq2] at h1
    simp at hdiff
    exact hdiff h1
  next hcond =>
    simp

theorem ltStage_true (r : Reg) (sl : Option Int) :
    (ltStage (r, true) sl).2 = true := by
  unfold ltStage
  repeat' split
  all_goals rfl

theorem baseStage_true (i : Bool) (st : Reg × Bool) (sb : Option String)
    (h : st.2 = true) : (baseStage i st sb).2 = true := by
  unfold baseStage
  repeat' split
  all_goals first | rfl | exact h

theorem netBaseStage_true (i : Bool) (st : Reg × Bool) (nb : Option String)
    (st' : Reg × Bool) (hok : netBaseStage i st nb = .ok st')
    (h : st.2 = true) : st'.2 = true := by
  unfold netBaseStage at hok
  repeat' split at hok
  all_goals first
    | (injection hok with h1; subst h1; exact h)
    | (injection hok with h1; subst h1; rfl)
    | (injection hok; done)

theorem rpStage_true (st : Reg × Bool) (p2 : Query) (h : st.2 = true) :
    (rpStage st p2).2 = true := by
  unfold rpStage
  split
  · rfl
  · exact h

/-- Success-path decomposition of `updTail`. -/
theorem updTail_ok (reg : Reg) (isInitial : Bool) (nb : Option String)
    (setLt : Option Int) (setBase : Option String) (p2 : Query) (reg' : Reg)
    (fired : Bool)
    (h : updTail reg isInitial nb setLt setBase p2 = .ok (reg', fired)) :
    ∃ st3 r4,
      netBaseStage isInitial
          (baseStage isInitial (ltStage (reg, isInitial) setLt) setBase) nb
        = .ok st3
      ∧ rpStage st3 p2 = (r4, fired)
      ∧ reg' = { r4 with timeout := r4.lt + 15 } := by
  unfold updTail at h
  split at h
  next heq => injection h
  next st3 heq =>
    cases hrp : rpStage st3 p2 with
    | mk r4 a4 =>
      rw [hrp] at h
      injection h with h1
      injection h1 with h2 h3
      exact ⟨st3, r4, heq, by rw [hrp, h3], h2.symm⟩

/-- Success-path decomposition of `update_params`. -/
theorem updSuccess (reg : Reg) (origin : Option String) (params : Query)
    (isInitial : Bool) (reg' : Reg) (fired : Bool)
    (h : update_params reg origin params isInitial = .ok (reg', fired)) :
    ∃ ltv params1 bv params2 setLt st3 r4,
      pop_single_arg params "lt" = .ok (ltv, params1)
      ∧ parseLt ltv = .ok setLt
      ∧ pop_single_arg params1 "base" = .ok (bv, params2)
      ∧ netBaseStage isInitial
          (baseStage isInitial (ltStage (reg, isInitial) setLt) (bv.bind id))
          (if needNetBase reg params isInitial then origin else none)
          = .ok st3
      ∧ rpStage st3 params2 = (r4, fired)
      ∧ reg' = { r4 with timeout := r4.lt + 15 } := by
  unfold update_params at h
  repeat' split at h
  all_goals try (injection h; done)
  all_goals
    obtain ⟨st3, r4, hnet, hrp, hreg⟩ := updTail_ok _ _ _ _ _ _ _ _ h
  all_goals
    refine ⟨_, _, _, _, _, st3, r4, by assumption, by assumption,
      by assumption, ?_, hrp, hreg⟩
  all_goals
    first
      | (rw [if_pos (by assumption : needNetBase reg params isInitial = true)]
         exact hnet)
      | (rw [if_neg (by simp [(by assumption :
            ¬needNetBase reg params isInitial = true)])]
         exact hnet)

theorem pop_keys_nodup (q : Query) (name : String) (v : Option QVal)
    (q' : Query) (h : pop_single_arg q name = .ok (v, q'))
    (hnd : (q.map Prod.fst).Nodup) : (q'.map Prod.fst).Nodup := by
  unfold pop_single_arg at h
  repeat' split at h
  all_goals first
    | (injection h with h1; injection h1 with h2 h3; subst h3; exact hnd)
    | (injection h with h1; injection h1 with h2 h3; subst h3;
       exact List.Nodup.sublist
         (List.Sublist.map Prod.fst (List.filter_sublist q)) hnd)
    | (injection h; done)

/-- **C7** — for every successful `update_params` call, the change
notification fires iff the call is initial or some effective value (`lt`,
`base`, or the registration-parameter dict) ends up different from the
stored one, and the expiry timer is always re-armed for `lt + 15` (grace
period) using the new `lt`. -/
theorem rd_C7 (reg : Reg) (origin : Option String) (params : Query)
    (isInitial : Bool) (reg' : Reg) (fired : Bool)
    (hnd : (params.map Prod.fst).Nodup)
    (h : update_params reg origin params isInitial = .ok (reg', fired)) :
    (fired = true ↔ (isInitial = true ∨ reg'.lt ≠ reg.lt
      ∨ reg'.base ≠ reg.base
      ∨ reg'.registration_parameters ≠ reg.registration_parameters))
    ∧ reg'.timeout = reg'.lt + 15 := by
  obtain ⟨ltv, params1, bv, params2, setLt, st3, r4, hlt, hpl, hbase, hnet,
    hrp, hreg⟩ := updSuccess reg origin params isInitial reg' fired h
  have hnd1 : (params1.map Prod.fst).Nodup :=
    pop_keys_nodup params "lt" ltv params1 hlt hnd
  have hnd2 : (params2.map Prod.fst).Nodup :=
    pop_keys_nodup params1 "base" bv params2 hbase hnd1
  subst hreg
  obtain ⟨r3, a3⟩ := st3
  have hrc := rpStage_char r3 a3 params2 hnd2
  rw [hrp] at hrc
  obtain ⟨hlt4, hbase4, htime4, hiff4⟩ := hrc
  have hiff4c : fired = true
      ↔ (a3 = true ∨ r4.registration_parameters ≠ r3.registration_parameters) :=
    hiff4
  have e_lt4 : r4.lt = r3.lt := hlt4
  have e_b4 : r4.base = r3.base := hbase4
  cases isInitial with
  | true =>
    have h1 : (ltStage (reg, true) setLt).2 = true := ltStage_true reg setLt
    have h2 := baseStage_true true _ (bv.bind id) h1
    have h3 := netBaseStage_true true _ _ (r3, a3) hnet h2
    have h4 := rpStage_true (r3, a3) params2 h3
    rw [hrp] at h4
    exact ⟨iff_of_true h4 (Or.inl rfl), rfl⟩
  | false =>
    cases h1eq : ltStage (reg, false) setLt with
    | mk r1 a1 =>
      have hlf := ltStage_fields reg false setLt
      rw [h1eq] at hlf
      obtain ⟨hbase1, hexp1, hrp1, hiff1⟩ := hlf
      have hb1c : r1.base = reg.base := hbase1
      have hrp1c : r1.registration_parameters = reg.registration_parameters :=
        hrp1
      have hiff1c : a1 = true ↔ (false = true ∨ r1.lt ≠ reg.lt) := hiff1
      rw [h1eq] at hnet
      obtain ⟨hlt3, hrp3, hiff3⟩ :=
        baseNet_false r1 a1 (bv.bind id) _ (r3, a3) hnet
      have e_lt3 : r3.lt = r1.lt := hlt3
      have e_rp3 : r3.registration_parameters = r1.registration_parameters :=
        hrp3
      have hiff3c : a3 = true ↔ (a1 = true ∨ r3.base ≠ r1.base) := hiff3
      refine ⟨?_, rfl⟩
      show fired = true ↔ (false = true ∨ r4.lt ≠ reg.lt
        ∨ r4.base ≠ reg.base
        ∨ r4.registration_parameters ≠ reg.registration_parameters)
      rw [hiff4c, hiff3c, hiff1c, e_lt4, e_lt3, e_b4, hb1c, e_rp3, hrp1c]
      simp only [or_assoc]


/-- Witness for C7: a non-initial refresh with an unchanged `lt` fires no
notification (and re-arms the timer). -/
theorem rd_C7_witness :
    (([("lt", [some "90000"])] : Query).map Prod.fst).Nodup
    ∧ update_params regAlpha (some "coap://h") [("lt", [some "90000"])] false
        = .ok (regAlpha, false)
    ∧ ((false = true ↔ (false = true ∨ regAlpha.lt ≠ regAlpha.lt
        ∨ regAlpha.base ≠ regAlpha.base
        ∨ regAlpha.registration_parameters
            ≠ regAlpha.registration_parameters))
      ∧ regAlpha.timeout = regAlpha.lt + 15) :=
  ⟨by decide, by decide,
    rd_C7 regAlpha (some "coap://h") [("lt", [some "90000"])] false regAlpha
      false (by decide) (by decide)⟩

theorem updatedState_none (cbs : List CB) (nevs : List Event)
    (h : updated_state cbs = (nevs, none)) :
    nevs = cbs.map (fun c => Event.notified c.1) := by
  induction cbs generalizing nevs with
  | nil =>
    injection h with h1 h2
    rw [← h1]
    rfl
  | cons c rest ih =>
    obtain ⟨i, fails⟩ := c
    unfold updated_state at h
    cases fails
    · rw [if_neg Bool.false_ne_true] at h
      cases hrec : updated_state rest with
      | mk evs e =>
        rw [hrec] at h
        injection h with h1 h2
        subst h2
        rw [← h1, List.map_cons, ih evs (by rw [hrec])]
    · rw [if_pos rfl] at h
      injection h with h1 h2
      cases h2

theorem ltStage_static (r : Reg) (a : Bool) (sl : Option Int) :
    (ltStage (r, a) sl).1.rid = r.rid ∧ (ltStage (r, a) sl).1.path = r.path
    ∧ (ltStage (r, a) sl).1.links = r.links
    ∧ (ltStage (r, a) sl).1.dkey = r.dkey
    ∧ (ltStage (r, a) sl).1.dpath = r.dpath := by
  unfold ltStage
  repeat' split
  all_goals exact ⟨rfl, rfl, rfl, rfl, rfl⟩

theorem baseStage_static (i : Bool) (st : Reg × Bool) (sb : Option String) :
    (baseStage i st sb).1.rid = st.1.rid
    ∧ (baseStage i st sb).1.path = st.1.path
    ∧ (baseStage i st sb).1.links = st.1.links
    ∧ (baseStage i st sb).1.dkey = st.1.dkey
    ∧ (baseStage i st sb).1.dpath = st.1.dpath := by
  unfold baseStage
  repeat' split
  all_goals exact ⟨rfl, rfl, rfl, rfl, rfl⟩

theorem netBaseStage_static (i : Bool) (st : Reg × Bool) (nb : Option String)
    (st' : Reg × Bool) (h : netBaseStage i st nb = .ok st') :
    st'.1.rid = st.1.rid ∧ st'.1.path = st.1.path
    ∧ st'.1.links = st.1.links ∧ st'.1.dkey = st.1.dkey
    ∧ st'.1.dpath = st.1.dpath := by
  unfold netBaseStage at h
  repeat' split at h
  all_goals first
    | (injection h with h1; subst h1; exact ⟨rfl, rfl, rfl, rfl, rfl⟩)
    | (injection h; done)

theorem rpStage_static (st : Reg × Bool) (p2 : Query) :
    (rpStage st p2).1.rid = st.1.rid ∧ (rpStage st p2).1.path = st.1.path
    ∧ (rpStage st p2).1.links = st.1.links
    ∧ (rpStage st p2).1.dkey = st.1.dkey
    ∧ (rpStage st p2).1.dpath = st.1.dpath := by
  unfold rpStage
  split
  all_goals exact ⟨rfl, rfl, rfl, rfl, rfl⟩

/-- `update_params` never touches identity, path, links or the delete
closure's captured values. -/
theorem updParams_static (reg : Reg) (origin : Option String) (params : Query)
    (isInitial : Bool) (reg' : Reg) (fired : Bool)
    (h : update_params reg origin params isInitial = .ok (reg', fired)) :
    reg'.rid = reg.rid ∧ reg'.path = reg.path ∧ reg'.links = reg.links
    ∧ reg'.dkey = reg.dkey ∧ reg'.dpath = reg.dpath := by
  obtain ⟨ltv, params1, bv, params2, setLt, st3, r4, hlt, hpl, hbase, hnet,
    hrp, hreg⟩ := updSuccess reg origin params isInitial reg' fired h
  subst hreg
  obtain ⟨l1, l2, l3, l4, l5⟩ := ltStage_static reg isInitial setLt
  obtain ⟨b1, b2, b3, b4, b5⟩ :=
    baseStage_static isInitial (ltStage (reg, isInitial) setLt) (bv.bind id)
  obtain ⟨n1, n2, n3, n4, n5⟩ := netBaseStage_static isInitial _ _ st3 hnet
  obtain ⟨p1, p2', p3, p4, p5⟩ := rpStage_static st3 params2
  rw [hrp] at p1 p2' p3 p4 p5
  exact ⟨by rw [show r4.rid = st3.1.rid from p1, n1, b1, l1],
    by rw [show r4.path = st3.1.path from p2', n2, b2, l2],
    by rw [show r4.links = st3.1.links from p3, n3, b3, l3],
    by rw [show r4.dkey = st3.1.dkey from p4, n4, b4, l4],
    by rw [show r4.dpath = st3.1.dpath from p5, n5, b5, l5]⟩

/-- An initial `update_params` that succeeds always reports a change. -/
theorem updInitial_fired (reg : Reg) (origin : Option String) (params : Query)
    (reg' : Reg) (fired : Bool)
    (h : update_params reg origin params true = .ok (reg', fired)) :
    fired = true := by
  obtain ⟨ltv, params1, bv, params2, setLt, st3, r4, hlt, hpl, hbase, hnet,
    hrp, hreg⟩ := updSuccess reg origin params true reg' fired h
  have h1 : (ltStage (reg, true) setLt).2 = true := ltStage_true reg setLt
  have h2 := baseStage_true true _ (bv.bind id) h1
  have h3 := netBaseStage_true true _ _ st3 hnet h2
  have h4 := rpStage_true st3 params2 h3
  rw [hrp] at h4
  exact h4

theorem deleteCb_ok (s : RDState) (k : String × Option String)
    (p : List String) (s1 : RDState) (h : deleteCb s k p = .ok s1) :
    s1 = { s with
      byPath := s.byPath.filter (fun q => !(q.1 == p)),
      byKey := s.byKey.filter (fun q => !(q.1 == k)) } := by
  unfold deleteCb at h
  cases hbp : pyDelAssoc s.byPath p with
  | error e => rw [hbp] at h; simp at h
  | ok bp =>
    rw [hbp] at h
    cases hbk : pyDelAssoc s.byKey k with
    | error e => rw [hbk] at h; simp at h
    | ok bk =>
      rw [hbk] at h
      injection h with h1
      unfold pyDelAssoc at hbp hbk
      split at hbp
      · injection hbp with h2
        split at hbk
        · injection hbk with h3
          subst h2; subst h3; exact h1.symm
        · exact absurd hbk (by simp)
      · exact absurd hbp (by simp)

theorem regDelete_ok (s : RDState) (rid : Nat) (k : String × Option String)
    (p : List String) (s1 : RDState) (evs : List Event)
    (h : reg_delete s rid k p = (.ok s1, evs)) :
    s1 = { s with
      byPath := s.byPath.filter (fun q => !(q.1 == p)),
      byKey := s.byKey.filter (fun q => !(q.1 == k)) }
    ∧ evs = [Event.timerCancelled rid]
        ++ s.cbs.map (fun c => Event.notified c.1)
        ++ [Event.removedMaps rid] := by
  simp only [reg_delete] at h
  cases hus : updated_state s.cbs with
  | mk nevs cbe =>
    rw [hus] at h
    cases cbe with
    | some e => simp at h
    | none =>
      have hnevs := updatedState_none s.cbs nevs hus
      subst hnevs
      cases hdc : deleteCb s k p with
      | error es => rw [hdc] at h; simp at h
      | ok s2 =>
        rw [hdc] at h
        simp only [] at h
        injection h with h1 h2
        refine ⟨?_, h2.symm⟩
        have h3 : s2 = s1 := by injection h1
        exact h3 ▸ (deleteCb_ok s k p s2 hdc)

theorem finishInit_ok (s : RDState) (origin : Option String)
    (k : String × Option String) (p : List String)
    (epAndD params2 : Query) (evs0 : List Event)
    (reg1 : Reg) (s' : RDState) (evs : List Event)
    (h : finishInit s origin k p epAndD params2 evs0 = (.ok reg1, s', evs)) :
    update_params
      { rid := s.nextId, path := entityPrefixSegs ++ p, links := [],
        registration_parameters := epAndD, lt := 90000, base := "",
        base_is_explicit := false, timeout := 0, dkey := k, dpath := p }
      origin params2 true = .ok (reg1, true)
    ∧ s' = { s with byKey := pyDictSet s.byKey k reg1,
                    byPath := pyDictSet s.byPath p reg1,
                    nextId := s.nextId + 1 }
    ∧ evs = evs0 ++ [Event.timerSet reg1.rid reg1.timeout]
        ++ s.cbs.map (fun c => Event.notified c.1)
        ++ [Event.installed reg1.rid] := by
  simp only [finishInit] at h
  split at h
  next e x heq => simp at h
  next reg1' fired heq =>
    split at h
    · split at h
      next nevs e heq2 => simp at h
      next nevs heq2 =>
        have hnevs := updatedState_none s.cbs nevs heq2
        subst hnevs
        injection h with ha hbc
        injection hbc with hb hc
        have hr : reg1' = reg1 := by injection ha
        subst hr
        have hfired := updInitial_fired _ origin params2 reg1' fired heq
        subst hfired
        exact ⟨heq, hb.symm, hc.symm⟩
    · next hf =>
      have hfired := updInitial_fired _ origin params2 reg1' fired heq
      exact absurd hfired hf

theorem filterRemovedNotified (l : List CB) :
    (l.map (fun c => Event.notified c.1)).filter
      (fun e => match e with | Event.removedMaps _ => true | _ => false) = [] := by
  induction l with
  | nil => rfl
  | cons a t ih => simp [ih]

/-- C8: re-registering an existing `(ep, d)` key reuses the old registration's
path, runs the old registration's delete exactly once (timer cancelled,
callbacks fired, maps cleaned) before the new registration is installed, and
afterwards the new registration — a distinct object — is the one resolvable at
that key and path. -/
theorem rd_C8 (s : RDState) (origin : Option String) (params : Query)
    (ep : String) (dv : Option QVal) (params1 params2 : Query)
    (old newReg : Reg) (s' : RDState) (evs : List Event)
    (hep : pop_single_arg params "ep" = .ok (some (some ep), params1))
    (hd : pop_single_arg params1 "d" = .ok (dv, params2))
    (hk : s.byKey.lookup (ep, dv.bind id) = some old)
    (hpath : old.path = entityPrefixSegs ++ old.path.drop 1)
    (hfresh : old.rid ≠ s.nextId)
    (hrun : initialize_endpoint s origin params = (.ok newReg, s', evs)) :
    newReg.path = old.path
    ∧ newReg.rid = s.nextId
    ∧ newReg.rid ≠ old.rid
    ∧ s'.byKey.lookup (ep, dv.bind id) = some newReg
    ∧ s'.byPath.lookup (old.path.drop 1) = some newReg
    ∧ evs = [Event.timerCancelled old.rid]
        ++ s.cbs.map (fun c => Event.notified c.1)
        ++ [Event.removedMaps old.rid,
            Event.timerSet newReg.rid newReg.timeout]
        ++ s.cbs.map (fun c => Event.notified c.1)
        ++ [Event.installed newReg.rid]
    ∧ evs.filter (fun e => match e with
        | Event.removedMaps _ => true
        | _ => false) = [Event.removedMaps old.rid] := by
  simp only [initialize_endpoint, hep, hd] at hrun
  rw [show ((some (some ep)).bind id : Option String) = some ep from rfl] at hrun
  simp only [hk] at hrun
  cases hrd : reg_delete s old.rid old.dkey old.dpath with
  | mk res evs1 =>
    rw [hrd] at hrun
    cases res with
    | error es =>
      cases es with
      | mk e sE => simp at hrun
    | ok s1 =>
      simp only [] at hrun
      obtain ⟨hs1, hevs1⟩ := regDelete_ok s old.rid old.dkey old.dpath s1 evs1 hrd
      subst hs1
      subst hevs1
      obtain ⟨hup, hs', hevs⟩ :=
        finishInit_ok _ origin _ _ _ params2 _ newReg s' evs hrun
      obtain ⟨hrid, hpath', _, _, _⟩ :=
        updParams_static _ origin params2 true newReg true hup
      have hrid' : newReg.rid = s.nextId := hrid
      have hp2 : newReg.path = entityPrefixSegs ++ old.path.drop 1 := hpath'
      have hp : newReg.path = old.path := hp2.trans hpath.symm
      have hky : List.lookup (ep, dv.bind id) s'.byKey = some newReg := by
        rw [hs']
        exact lookup_pyDictSet_self _ (ep, dv.bind id) newReg
      have hpy : List.lookup (old.path.drop 1) s'.byPath = some newReg := by
        rw [hs']
        exact lookup_pyDictSet_self _ (old.path.drop 1) newReg
      have hevs2 : evs =
          ([Event.timerCancelled old.rid]
            ++ s.cbs.map (fun c => Event.notified c.1)
            ++ [Event.removedMaps old.rid])
          ++ [Event.timerSet newReg.rid newReg.timeout]
          ++ s.cbs.map (fun c => Event.notified c.1)
          ++ [Event.installed newReg.rid] := hevs
      refine ⟨hp, hrid', ?_, hky, hpy, ?_, ?_⟩
      · rw [hrid']; exact Ne.symm hfresh
      · rw [hevs2]; simp [List.append_assoc]
      · rw [hevs2]
        simp [List.filter_append, filterRemovedNotified, List.filter]

theorem rd_C8_witness :
    initialize_endpoint stateC8 (some "coap://h/") [("ep", [some "n1"])]
      = (.ok regNewC8, stateC8f, evsC8)
    ∧ (regNewC8.path = regOldC8.path
       ∧ regNewC8.rid = stateC8.nextId
       ∧ regNewC8.rid ≠ regOldC8.rid
       ∧ stateC8f.byKey.lookup ("n1", (none : Option QVal).bind id)
           = some regNewC8
       ∧ stateC8f.byPath.lookup (regOldC8.path.drop 1) = some regNewC8
       ∧ evsC8 = [Event.timerCancelled regOldC8.rid]
           ++ stateC8.cbs.map (fun c => Event.notified c.1)
           ++ [Event.removedMaps regOldC8.rid,
               Event.timerSet regNewC8.rid regNewC8.timeout]
           ++ stateC8.cbs.map (fun c => Event.notified c.1)
           ++ [Event.installed regNewC8.rid]
       ∧ evsC8.filter (fun e => match e with
           | Event.removedMaps _ => true
           | _ => false) = [Event.removedMaps regOldC8.rid]) :=
  ⟨rfl, rd_C8 stateC8 (some "coap://h/") [("ep", [some "n1"])] "n1" none [] []
      regOldC8 regNewC8 stateC8f evsC8 rfl rfl rfl rfl (by decide) rfl⟩

end RD
